import Mathlib

/-!
Verification development for the PowerFlex-demo storage cluster.

The definitions below are shallow embeddings of the Python sources:
  * `shared/token_utils.py`  (HMAC-SHA256 token signing / verification)
  * `sds/token_verifier.py`, `sds/data_handler.py` (SDS data-plane checks)
  * `mdm/token_authority.py` (token issue / ack recording)
  * `app/services/storage_engine.py` = `mdm/services/storage_engine.py`
    (capacity accounting, chunk placement, degradation marking, healing)
  * `mdm/services/volume_manager.py` (volume CRUD orchestration)
  * `mdm/services/rebuild_engine.py`  (fail / recover / rebuild jobs)

Machine floats in the Python code carry exact values in all modelled
paths (integral byte counts, tenths of gigabytes); they are embedded as
rationals.  Python `int(x)` truncation toward zero is modelled by
`ratTrunc`.  The SQLAlchemy session's commit/rollback discipline is
modelled explicitly by a `Session` record holding the committed and the
pending database state.
-/

set_option maxRecDepth 100000

namespace Powerflex

/-! ## SHA-256 and HMAC (embedding of Python `hashlib` / `hmac` as used
by `shared/token_utils.py`) -/

/-- Truncate to a 32-bit word. -/
def w32 (n : Nat) : Nat := n % 4294967296

/-- Rotate a 32-bit word right by `k`. -/
def rotr (k n : Nat) : Nat := w32 ((n >>> k) ||| (n <<< (32 - k)))

def smallSigma0 (x : Nat) : Nat := rotr 7 x ^^^ rotr 18 x ^^^ (x >>> 3)
def smallSigma1 (x : Nat) : Nat := rotr 17 x ^^^ rotr 19 x ^^^ (x >>> 10)
def bigSigma0 (x : Nat) : Nat := rotr 2 x ^^^ rotr 13 x ^^^ rotr 22 x
def bigSigma1 (x : Nat) : Nat := rotr 6 x ^^^ rotr 11 x ^^^ rotr 25 x
def chFn (e f g : Nat) : Nat := (e &&& f) ^^^ ((e ^^^ 4294967295) &&& g)
def majFn (a b c : Nat) : Nat := (a &&& b) ^^^ (a &&& c) ^^^ (b &&& c)

/-- The SHA-256 round constants. -/
def K256 : List Nat :=
  [1116352408, 1899447441, 3049323471, 3921009573, 961987163, 1508970993,
   2453635748, 2870763221, 3624381080, 310598401, 607225278, 1426881987,
   1925078388, 2162078206, 2614888103, 3248222580, 3835390401, 4022224774,
   264347078, 604807628, 770255983, 1249150122, 1555081692, 1996064986,
   2554220882, 2821834349, 2952996808, 3210313671, 3336571891, 3584528711,
   113926993, 338241895, 666307205, 773529912, 1294757372, 1396182291,
   1695183700, 1986661051, 2177026350, 2456956037, 2730485921, 2820302411,
   3259730800, 3345764771, 3516065817, 3600352804, 4094571909, 275423344,
   430227734, 506948616, 659060556, 883997877, 958139571, 1322822218,
   1537002063, 1747873779, 1955562222, 2024104815, 2227730452, 2361852424,
   2428436474, 2756734187, 3204031479, 3329325298]

/-- The eight SHA-256 working variables. -/
structure Hash8 where
  a : Nat
  b : Nat
  c : Nat
  d : Nat
  e : Nat
  f : Nat
  g : Nat
  h : Nat
deriving Repr, DecidableEq

/-- SHA-256 initial hash value. -/
def sha256Init : Hash8 :=
  ⟨1779033703, 3144134277, 1013904242, 2773480762,
   1359893119, 2600822924, 528734635, 1541459225⟩

/-- One extension step of the message schedule; `acc` holds the words
produced so far, most recent first. -/
def schedExt : Nat → List Nat → List Nat
  | 0, acc => acc
  | t + 1, acc =>
    let w2 := acc.getD 1 0
    let w7 := acc.getD 6 0
    let w15 := acc.getD 14 0
    let w16 := acc.getD 15 0
    schedExt t (w32 (smallSigma1 w2 + w7 + smallSigma0 w15 + w16) :: acc)

/-- The 64-word message schedule of a 16-word block. -/
def schedule (block : List Nat) : List Nat :=
  (schedExt 48 block.reverse).reverse

/-- One SHA-256 round. -/
def roundStep (s : Hash8) (kw : Nat × Nat) : Hash8 :=
  let t1 := w32 (s.h + bigSigma1 s.e + chFn s.e s.f s.g + kw.1 + kw.2)
  let t2 := w32 (bigSigma0 s.a + majFn s.a s.b s.c)
  ⟨w32 (t1 + t2), s.a, s.b, s.c, w32 (s.d + t1), s.e, s.f, s.g⟩

/-- Compress one 16-word block into the running hash. -/
def compressBlock (h0 : Hash8) (block : List Nat) : Hash8 :=
  let s := (K256.zip (schedule block)).foldl roundStep h0
  ⟨w32 (h0.a + s.a), w32 (h0.b + s.b), w32 (h0.c + s.c), w32 (h0.d + s.d),
   w32 (h0.e + s.e), w32 (h0.f + s.f), w32 (h0.g + s.g), w32 (h0.h + s.h)⟩

/-- SHA-256 padding: `0x80`, zeros, and the 64-bit big-endian bit length. -/
def sha256Pad (msg : List Nat) : List Nat :=
  let len := msg.length
  let bitLen := 8 * len
  let zeros := (64 - (len + 9) % 64) % 64
  msg ++ 128 :: List.replicate zeros 0 ++
    [bitLen >>> 56 % 256, bitLen >>> 48 % 256, bitLen >>> 40 % 256,
     bitLen >>> 32 % 256, bitLen >>> 24 % 256, bitLen >>> 16 % 256,
     bitLen >>> 8 % 256, bitLen % 256]

/-- Pack big-endian bytes into 32-bit words. -/
def bytesToWords (bs : List Nat) : List Nat :=
  ((bs.foldl
      (fun (st : Nat × Nat × List Nat) b =>
        let cur := st.2.1 * 256 + b
        if st.1 = 3 then (0, 0, cur :: st.2.2) else (st.1 + 1, cur, st.2.2))
      (0, 0, [])).2.2).reverse

/-- Group a word list into 16-word blocks. -/
def wordsToBlocks (ws : List Nat) : List (List Nat) :=
  ((ws.foldl
      (fun (st : Nat × List Nat × List (List Nat)) w =>
        let cur := w :: st.2.1
        if st.1 = 15 then (0, [], cur.reverse :: st.2.2)
        else (st.1 + 1, cur, st.2.2))
      (0, [], [])).2.2).reverse

/-- Unpack a 32-bit word into big-endian bytes. -/
def wordBytes (w : Nat) : List Nat :=
  [w >>> 24 % 256, w >>> 16 % 256, w >>> 8 % 256, w % 256]

/-- SHA-256 digest of a byte string, as 32 bytes. -/
def sha256 (msg : List Nat) : List Nat :=
  let final := (wordsToBlocks (bytesToWords (sha256Pad msg))).foldl
    compressBlock sha256Init
  wordBytes final.a ++ wordBytes final.b ++ wordBytes final.c ++
    wordBytes final.d ++ wordBytes final.e ++ wordBytes final.f ++
    wordBytes final.g ++ wordBytes final.h

/-- HMAC-SHA256 (RFC 2104, block size 64) of a message under a key. -/
def hmacSha256 (key msg : List Nat) : List Nat :=
  let key1 := if 64 < key.length then sha256 key else key
  let kpad := key1 ++ List.replicate (64 - key1.length) 0
  let inner := sha256 (kpad.map (fun b => b ^^^ 54) ++ msg)
  sha256 (kpad.map (fun b => b ^^^ 92) ++ inner)

/-- Lower-case hex digit. -/
def hexDigit (n : Nat) : Char :=
  if n = 0 then '0' else if n = 1 then '1' else if n = 2 then '2'
  else if n = 3 then '3' else if n = 4 then '4' else if n = 5 then '5'
  else if n = 6 then '6' else if n = 7 then '7' else if n = 8 then '8'
  else if n = 9 then '9' else if n = 10 then 'a' else if n = 11 then 'b'
  else if n = 12 then 'c' else if n = 13 then 'd' else if n = 14 then 'e'
  else 'f'

/-- Lower-case hex encoding of a byte string (Python `.hexdigest()`). -/
def hexOfBytes (bs : List Nat) : String :=
  ⟨bs.foldr (fun b acc => hexDigit (b >>> 4 % 16) :: hexDigit (b % 16) :: acc) []⟩

/-- UTF-8 encoding of one character (Python `str.encode()`). -/
def charUtf8 (c : Char) : List Nat :=
  let n := c.toNat
  if n < 128 then [n]
  else if n < 2048 then [192 ||| (n >>> 6), 128 ||| (n &&& 63)]
  else if n < 65536 then
    [224 ||| (n >>> 12), 128 ||| ((n >>> 6) &&& 63), 128 ||| (n &&& 63)]
  else
    [240 ||| (n >>> 18), 128 ||| ((n >>> 12) &&& 63),
     128 ||| ((n >>> 6) &&& 63), 128 ||| (n &&& 63)]

/-- UTF-8 byte string of a Lean string. -/
def strBytes (s : String) : List Nat :=
  s.data.foldr (fun c acc => charUtf8 c ++ acc) []

/-! ## `shared/token_utils.py` -/

/-- `sign_token`: hex HMAC-SHA256 of
`token_id|volume_id|operation|offset|length` keyed by the cluster
secret. -/
def sign_token (tokenId : String) (volumeId : Int) (operation : String)
    (clusterSecret : String) (offsetBytes lengthBytes : Int) : String :=
  let message := tokenId ++ "|" ++ toString volumeId ++ "|" ++ operation ++
    "|" ++ toString offsetBytes ++ "|" ++ toString lengthBytes
  hexOfBytes (hmacSha256 (strBytes clusterSecret) (strBytes message))

/-- `hmac.compare_digest`: constant-time in Python, extensionally string
equality. -/
def compare_digest (a b : String) : Bool := a == b

/-- `verify_token`: recompute the signature and compare. -/
def verify_token (tokenId : String) (volumeId : Int)
    (operation signature clusterSecret : String)
    (offsetBytes lengthBytes : Int) : Bool :=
  compare_digest signature
    (sign_token tokenId volumeId operation clusterSecret offsetBytes lengthBytes)

/-- `is_token_expired`: `datetime.now(timezone.utc) > expires_at`.
Timestamps are embedded as integer seconds; `now` is passed explicitly. -/
def is_token_expired (now expiresAt : Int) : Bool := expiresAt < now

/-! ## SDS data plane: `sds/token_verifier.py` and `sds/data_handler.py` -/

/-- The wire token payload (`build_token_payload`), with `expires_at`
already parsed to a timestamp. -/
structure IOTokenPayload where
  tokenId : String
  volumeId : Int
  sdcId : Int
  operation : String
  offsetBytes : Int
  lengthBytes : Int
  signature : String
  expiresAt : Int
deriving Repr, DecidableEq

/-- A row of the SDS `consumed_tokens` table (`sds/models.py`,
`token_id` unique). -/
structure ConsumedToken where
  tokenId : String
  volumeId : Int
  chunkId : Int
  operation : String
  offsetBytes : Int
  lengthBytes : Int
  success : Bool
  consumedAt : Int
deriving Repr, DecidableEq

/-- `TokenVerifier.verify_io_token`.  The check order follows the
source: required fields, expiry, replay (consumed-token lookup),
signature, volume match, operation match, range containment.  Field
presence is Python truthiness on the strings; type checks always pass in
the typed embedding. -/
def verify_io_token (consumed : List ConsumedToken) (clusterSecret : String)
    (now : Int) (token : IOTokenPayload) (volumeId _chunkId : Int)
    (operation : String) (offsetBytes lengthBytes : Int) :
    Bool × Option String :=
  if token.tokenId = "" ∨ token.operation = "" ∨ token.signature = "" then
    (false, some "Token missing required fields")
  else if is_token_expired now token.expiresAt then
    (false, some "Token expired")
  else
    match consumed.find? (fun c => c.tokenId == token.tokenId) with
    | some c =>
      (false, some ("Token already consumed at " ++ toString c.consumedAt))
    | none =>
      if ¬ verify_token token.tokenId token.volumeId token.operation
          token.signature clusterSecret token.offsetBytes token.lengthBytes then
        (false, some "Invalid token signature")
      else if token.volumeId ≠ volumeId then
        (false, some "Token volume mismatch")
      else if token.operation ≠ operation then
        (false, some "Token operation mismatch")
      else if offsetBytes < token.offsetBytes ∨
          token.offsetBytes + token.lengthBytes < offsetBytes + lengthBytes then
        (false, some "Token range mismatch")
      else
        (true, none)

/-- A row of the SDS `local_replicas` table, restricted to the fields the
write path touches. -/
structure LocalReplica where
  replicaId : Nat
  chunkId : Int
  volumeId : Int
  generation : Nat
deriving Repr, DecidableEq

/-- A row of the SDS `write_journal` table. -/
structure JournalEntry where
  tokenId : String
  chunkId : Int
  operation : String
  offsetBytes : Int
  lengthBytes : Int
  status : String
deriving Repr, DecidableEq

/-- A row of the SDS `ack_queue` table. -/
structure AckRow where
  tokenId : String
  chunkId : Int
  success : Bool
  bytesProcessed : Int
deriving Repr, DecidableEq

/-- The SDS local store (`sds/database.py` tables used by the write path). -/
structure SDSState where
  consumed : List ConsumedToken
  journal : List JournalEntry
  replicas : List LocalReplica
  ackQueue : List AckRow
deriving Repr, DecidableEq

/-- A decoded write frame; `data` is the base64-decoded payload. -/
structure WriteRequest where
  token : IOTokenPayload
  volumeId : Int
  chunkId : Int
  offsetBytes : Int
  data : List Nat
deriving Repr, DecidableEq

/-- Outcome of an SDS data-plane request. -/
structure WriteResult where
  ok : Bool
  bytesWritten : Int
  error : Option String
deriving Repr, DecidableEq

/-- `SDSDataHandler._handle_write`: verify the token, locate the local
replica, journal the write, execute it, bump the generation, record the
consumed token and enqueue the ACK.  The modelled disk write cannot
fail, so the journal entry appears directly in its `COMMITTED` state. -/
def handle_write (clusterSecret : String) (now : Int) (s : SDSState)
    (req : WriteRequest) : WriteResult × SDSState :=
  let lengthBytes : Int := req.data.length
  let v := verify_io_token s.consumed clusterSecret now req.token
    req.volumeId req.chunkId "write" req.offsetBytes lengthBytes
  if ¬ v.1 then
    (⟨false, 0, some ("Token verification failed: " ++ (v.2.getD ""))⟩, s)
  else
    match s.replicas.find?
        (fun r => r.chunkId == req.chunkId && r.volumeId == req.volumeId) with
    | none => (⟨false, 0, some "Chunk not found on this SDS"⟩, s)
    | some replica =>
      let s1 : SDSState :=
        { consumed := s.consumed ++
            [⟨req.token.tokenId, req.volumeId, req.chunkId, "write",
              req.offsetBytes, lengthBytes, true, now⟩]
          journal := s.journal ++
            [⟨req.token.tokenId, req.chunkId, "write", req.offsetBytes,
              lengthBytes, "COMMITTED"⟩]
          replicas := s.replicas.map (fun r =>
            if r.replicaId == replica.replicaId then
              { r with generation := r.generation + 1 }
            else r)
          ackQueue := s.ackQueue ++
            [⟨req.token.tokenId, req.chunkId, true, lengthBytes⟩] }
      (⟨true, lengthBytes, none⟩, s1)

/-! ## MDM token authority: `mdm/token_authority.py` -/

/-- A row of the MDM `io_tokens` table. -/
structure IOTokenRow where
  tokenId : String
  volumeId : Int
  sdcId : Int
  operation : String
  offsetBytes : Int
  lengthBytes : Int
  expiresAt : Int
  signature : String
  status : String
  consumedAt : Option Int
deriving Repr, DecidableEq

/-- A row of the MDM `io_transaction_acks` table. -/
structure AckRecord where
  tokenId : String
  sdsId : Int
  success : Bool
  bytesProcessed : Option Int
  receivedAt : Int
deriving Repr, DecidableEq

/-- The token-authority slice of the MDM store. -/
structure AuthorityState where
  tokens : List IOTokenRow
  acks : List AckRecord
deriving Repr, DecidableEq

/-- `TokenAuthority.mark_token_consumed`: unconditionally sets the token
`CONSUMED` with `consumed_at = now`; `False` only when the token id is
unknown. -/
def mark_token_consumed (now : Int) (s : AuthorityState) (tokenId : String) :
    Bool × AuthorityState :=
  match s.tokens.find? (fun t => t.tokenId == tokenId) with
  | none => (false, s)
  | some _ =>
    (true,
     { s with tokens := s.tokens.map (fun t =>
         if t.tokenId == tokenId then
           { t with status := "CONSUMED", consumedAt := some now }
         else t) })

/-- `TokenAuthority.record_transaction_ack`: on success first mark the
token consumed, then append the ACK row. -/
def record_transaction_ack (now : Int) (s : AuthorityState) (tokenId : String)
    (sdsId : Int) (success : Bool) (bytesProcessed : Option Int) :
    AckRecord × AuthorityState :=
  let s1 := if success then (mark_token_consumed now s tokenId).2 else s
  let ack : AckRecord := ⟨tokenId, sdsId, success, bytesProcessed, now⟩
  (ack, { s1 with acks := s1.acks ++ [ack] })

/-! ## Exact rationals

Python floats carry exact values on every modelled code path (integral
byte counts, capacities in tenths or 1/256ths of a gigabyte), so they
are embedded as exact rationals.  A dedicated executable representation
(canonical numerator/denominator, fuel-based gcd) is used so that every
arithmetic step reduces. -/

/-- Euclid's algorithm with explicit fuel; `m + 1` steps always
suffice since the first argument strictly decreases. -/
def gcdFuel : Nat → Nat → Nat → Nat
  | 0, _, n => n
  | f + 1, m, n => if m = 0 then n else gcdFuel f (n % m) m

def natGcd (m n : Nat) : Nat := gcdFuel (m + 1) m n

/-- A rational number in canonical form (`den` positive, fraction
reduced) when built through `mkQ`. -/
structure Q where
  num : Int
  den : Nat
deriving Repr, DecidableEq

/-- Normalize `n / d`. -/
def mkQ (n d : Int) : Q :=
  if d = 0 then ⟨0, 1⟩
  else
    let n1 := if d < 0 then -n else n
    let dNat := d.natAbs
    let g := natGcd n1.natAbs dNat
    ⟨Int.tdiv n1 g, dNat / g⟩

instance (n : Nat) : OfNat Q n := ⟨⟨n, 1⟩⟩
instance : NatCast Q := ⟨fun n => ⟨n, 1⟩⟩
instance : IntCast Q := ⟨fun n => ⟨n, 1⟩⟩
instance : Add Q :=
  ⟨fun a b => mkQ (a.num * b.den + b.num * a.den) (a.den * b.den)⟩
instance : Sub Q :=
  ⟨fun a b => mkQ (a.num * b.den - b.num * a.den) (a.den * b.den)⟩
instance : Mul Q := ⟨fun a b => mkQ (a.num * b.num) (a.den * b.den)⟩
instance : Div Q := ⟨fun a b => mkQ (a.num * b.den) (a.den * b.num)⟩
instance : Neg Q := ⟨fun a => ⟨-a.num, a.den⟩⟩
instance : LE Q := ⟨fun a b => a.num * b.den ≤ b.num * a.den⟩
instance : LT Q := ⟨fun a b => a.num * b.den < b.num * a.den⟩

instance (a b : Q) : Decidable (a ≤ b) :=
  inferInstanceAs (Decidable (a.num * b.den ≤ b.num * a.den))

instance (a b : Q) : Decidable (a < b) :=
  inferInstanceAs (Decidable (a.num * b.den < b.num * a.den))

/-- Python `max` of two rationals. -/
def qmax (a b : Q) : Q := if a ≤ b then b else a

/-! ## MDM metadata model (`mdm/models.py` / `app/models.py`) -/

inductive SDSNodeState | up | down | degradedNode
deriving Repr, DecidableEq

inductive PoolHealth | ok | degradedPool | failedPool
deriving Repr, DecidableEq

inductive RebuildState | idle | inProgress | stalled | completed | failedRebuild
deriving Repr, DecidableEq

inductive ProtectionPolicy | twoCopies | erasureCoding
deriving Repr, DecidableEq

inductive ProvisioningType | thin | thick
deriving Repr, DecidableEq

inductive VolumeState | creating | availableVol | inUse | degradedVol | deleting
deriving Repr, DecidableEq

structure SDSNode where
  sdsId : Nat
  pdId : Nat
  faultSetId : Option Nat
  totalCapacityGb : Q
  usedCapacityGb : Q
  state : SDSNodeState
deriving Repr, DecidableEq

structure StoragePool where
  poolId : Nat
  pdId : Nat
  protectionPolicy : ProtectionPolicy
  totalCapacityGb : Q
  usedCapacityGb : Q
  reservedCapacityGb : Q
  rebuildRateLimitMbps : Q
  health : PoolHealth
  rebuildState : RebuildState
  rebuildProgressPercent : Int
deriving Repr, DecidableEq

structure VolumeRow where
  volumeId : Nat
  poolId : Nat
  name : String
  sizeGb : Q
  provisioning : ProvisioningType
  state : VolumeState
  mappingCount : Nat
  usedCapacityGb : Q
deriving Repr, DecidableEq

structure ChunkRow where
  chunkId : Nat
  volumeId : Nat
  logicalOffsetMb : Q
  isDegraded : Bool
deriving Repr, DecidableEq

structure ReplicaRow where
  replicaId : Nat
  chunkId : Nat
  sdsId : Nat
  isAvailable : Bool
  isCurrent : Bool
  isRebuilding : Bool
deriving Repr, DecidableEq

structure RebuildJobRow where
  jobId : Nat
  poolId : Nat
  state : RebuildState
  progressPercent : Int
  totalBytesToRebuild : Q
  bytesRebuilt : Int
  estimatedTimeRemainingSeconds : Int
  currentRebuildRateMbps : Q
  startedAt : Int
  completedAt : Option Int
deriving Repr, DecidableEq

/-- The MDM metadata store.  `next*` counters model the autoincrement
primary keys. -/
structure ClusterState where
  sdss : List SDSNode
  pools : List StoragePool
  volumes : List VolumeRow
  chunks : List ChunkRow
  replicas : List ReplicaRow
  jobs : List RebuildJobRow
  nextVolumeId : Nat
  nextChunkId : Nat
  nextReplicaId : Nat
  nextJobId : Nat
deriving Repr, DecidableEq

/-- A SQLAlchemy session: the durable state and the state as seen inside
the current transaction. -/
structure Session where
  committed : ClusterState
  pending : ClusterState
deriving Repr, DecidableEq

def Session.start (db : ClusterState) : Session := ⟨db, db⟩
def Session.commit (s : Session) : Session := ⟨s.pending, s.pending⟩
def Session.rollback (s : Session) : Session := ⟨s.committed, s.committed⟩

/-- Python `int(x)` on a float value: truncation toward zero. -/
def ratTrunc (q : Q) : Int := Int.tdiv q.num q.den

/-- Python `math.ceil` on a rational value. -/
def ratCeil (q : Q) : Int := -(Int.fdiv (-q.num) q.den)

/-! Queries and row updates. -/

def findPool (s : ClusterState) (poolId : Nat) : Option StoragePool :=
  s.pools.find? (fun p => p.poolId == poolId)

def findVolume (s : ClusterState) (volumeId : Nat) : Option VolumeRow :=
  s.volumes.find? (fun v => v.volumeId == volumeId)

def findSds (s : ClusterState) (sdsId : Nat) : Option SDSNode :=
  s.sdss.find? (fun n => n.sdsId == sdsId)

def poolVolumes (s : ClusterState) (poolId : Nat) : List VolumeRow :=
  s.volumes.filter (fun v => v.poolId == poolId)

def volumeChunks (s : ClusterState) (volumeId : Nat) : List ChunkRow :=
  s.chunks.filter (fun c => c.volumeId == volumeId)

def chunkReplicas (s : ClusterState) (chunkId : Nat) : List ReplicaRow :=
  s.replicas.filter (fun r => r.chunkId == chunkId)

/-- Number of available replicas of a chunk. -/
def availCount (s : ClusterState) (chunkId : Nat) : Nat :=
  (s.replicas.filter (fun r => r.chunkId == chunkId && r.isAvailable)).length

def updatePool (s : ClusterState) (poolId : Nat)
    (f : StoragePool → StoragePool) : ClusterState :=
  { s with pools := s.pools.map (fun p => if p.poolId == poolId then f p else p) }

def updateVolume (s : ClusterState) (volumeId : Nat)
    (f : VolumeRow → VolumeRow) : ClusterState :=
  { s with volumes := s.volumes.map (fun v =>
      if v.volumeId == volumeId then f v else v) }

def updateSds (s : ClusterState) (sdsId : Nat)
    (f : SDSNode → SDSNode) : ClusterState :=
  { s with sdss := s.sdss.map (fun n => if n.sdsId == sdsId then f n else n) }

def updateChunk (s : ClusterState) (chunkId : Nat)
    (f : ChunkRow → ChunkRow) : ClusterState :=
  { s with chunks := s.chunks.map (fun c =>
      if c.chunkId == chunkId then f c else c) }

def updateReplica (s : ClusterState) (replicaId : Nat)
    (f : ReplicaRow → ReplicaRow) : ClusterState :=
  { s with replicas := s.replicas.map (fun r =>
      if r.replicaId == replicaId then f r else r) }

/-- `sql_update(RebuildJob).where(RebuildJob.pool_id == pool_id)` hits
every job row of the pool. -/
def updateJobsByPool (s : ClusterState) (poolId : Nat)
    (f : RebuildJobRow → RebuildJobRow) : ClusterState :=
  { s with jobs := s.jobs.map (fun j => if j.poolId == poolId then f j else j) }

/-! ## Storage engine (`app/services/storage_engine.py`, byte-identical
to `mdm/services/storage_engine.py`) -/

/-- `StorageEngine._get_replica_count`. -/
def get_replica_count (policy : ProtectionPolicy) : Nat :=
  match policy with
  | .twoCopies => 2
  | .erasureCoding => 3

/-- Load fraction used for least-loaded selection:
`used / max(total, 1)`. -/
def loadFraction (n : SDSNode) : Q :=
  n.usedCapacityGb / qmax n.totalCapacityGb 1

/-- Python `min(key=...)`: first element attaining the minimal key. -/
def minByFirst (key : SDSNode → Q) : List SDSNode → Option SDSNode
  | [] => none
  | x :: xs =>
    match minByFirst key xs with
    | none => some x
    | some y => if key y < key x then some y else some x

/-- Stable insertion into an ascending-sorted list (CPython `sorted`). -/
def insAsc (key : SDSNode → Q) (x : SDSNode) :
    List SDSNode → List SDSNode
  | [] => [x]
  | y :: ys => if key x ≤ key y then x :: y :: ys else y :: insAsc key x ys

/-- Stable sort, ascending by key. -/
def sortAscBy (key : SDSNode → Q) : List SDSNode → List SDSNode
  | [] => []
  | x :: xs => insAsc key x (sortAscBy key xs)

/-- Stable insertion into a descending-sorted list
(CPython `sort(reverse=True)` keeps equal keys in original order). -/
def insDesc (key : SDSNode → Q) (x : SDSNode) :
    List SDSNode → List SDSNode
  | [] => [x]
  | y :: ys => if key y ≤ key x then x :: y :: ys else y :: insDesc key x ys

/-- Stable sort, descending by key. -/
def sortDescBy (key : SDSNode → Q) : List SDSNode → List SDSNode
  | [] => []
  | x :: xs => insDesc key x (sortDescBy key xs)

/-- Group nodes by fault set in first-occurrence order (Python dict
insertion order); `none` plays the role of the shared
`"no_fault_set"` key. -/
def faultSetGroups (nodes : List SDSNode) : List (Option Nat × List SDSNode) :=
  nodes.foldl (fun acc n =>
    if acc.any (fun g => g.1 == n.faultSetId) then
      acc.map (fun g => if g.1 == n.faultSetId then (g.1, g.2 ++ [n]) else g)
    else acc ++ [(n.faultSetId, [n])]) []

/-- `StorageEngine._select_replica_targets`.  The protection policy is
passed in the source but unused by the selection. -/
def select_replica_targets (availableSds : List SDSNode) (count : Nat) :
    List SDSNode :=
  if availableSds.length < count then availableSds.take count
  else
    let groups := faultSetGroups availableSds
    let selected :=
      if count ≤ groups.length then
        (groups.foldl (fun sel g =>
          if count ≤ sel.length then sel
          else
            match minByFirst loadFraction g.2 with
            | none => sel
            | some best => if sel.contains best then sel else sel ++ [best]) [])
      else
        (sortAscBy loadFraction availableSds).take count
    selected.take count

/-- `StorageEngine.allocate_capacity`.  Thick volumes reserve and use the
full size up front; thin volumes add a fixed 0.1 GB metadata reserve to
`reserved_capacity_gb` only.  Commits on success. -/
def allocate_capacity (sess : Session) (poolId volumeId : Nat) :
    (Bool × String) × Session :=
  match findPool sess.pending poolId, findVolume sess.pending volumeId with
  | some pool, some volume =>
    let available := pool.totalCapacityGb -
      (pool.usedCapacityGb + pool.reservedCapacityGb)
    if volume.provisioning = .thick then
      let required := volume.sizeGb
      if available < required then
        ((false, "Insufficient capacity"), sess)
      else
        let p1 := updatePool sess.pending poolId (fun p =>
          { p with reservedCapacityGb := p.reservedCapacityGb + required,
                   usedCapacityGb := p.usedCapacityGb + required })
        let p2 := updateVolume p1 volumeId (fun v =>
          { v with usedCapacityGb := volume.sizeGb })
        ((true, "Capacity allocated successfully"),
         Session.commit { sess with pending := p2 })
    else
      let minReserved : Q := 1 / 10
      if available < minReserved then
        ((false, "Pool capacity exhausted even for thin volume metadata"), sess)
      else
        let p1 := updatePool sess.pending poolId (fun p =>
          { p with reservedCapacityGb := p.reservedCapacityGb + minReserved })
        let p2 := updateVolume p1 volumeId (fun v =>
          { v with usedCapacityGb := 0 })
        ((true, "Capacity allocated successfully"),
         Session.commit { sess with pending := p2 })
  | _, _ => ((false, "Pool or volume not found"), sess)

/-- The chunk/replica creation loop of `StorageEngine.allocate_chunks`.
`snap` is the SDS list loaded once before the loop: placement and the
per-replica `used_capacity` writes both read the stale ORM snapshot, so
capacity additions within one call do not accumulate.  Returns
`(chunks_created, placement_ok, state)`. -/
def allocate_chunks_go (snap : List SDSNode) (rc : Nat) (volumeId : Nat) :
    Nat → Nat → ClusterState → Nat × Bool × ClusterState
  | 0, created, st => (created, true, st)
  | n + 1, created, st =>
    let cid := st.nextChunkId
    let st1 : ClusterState :=
      { st with chunks := st.chunks ++ [⟨cid, volumeId, created * 4, false⟩],
                nextChunkId := cid + 1 }
    let targets := select_replica_targets snap rc
    if targets.length < rc then (created, false, st1)
    else
      let st2 := targets.foldl (fun acc sds =>
        { updateSds acc sds.sdsId (fun m =>
            { m with usedCapacityGb := sds.usedCapacityGb + 1 / 256 }) with
          replicas := acc.replicas ++
            [⟨acc.nextReplicaId, cid, sds.sdsId, true, true, false⟩],
          nextReplicaId := acc.nextReplicaId + 1 }) st1
      allocate_chunks_go snap rc volumeId n (created + 1) st2

/-- `StorageEngine.allocate_chunks`: `ceil(size_gb * 256)` chunks, each
with `replica_count` replicas; fails up front when fewer `UP` SDS nodes
than the policy's replica count exist, rolls back on a mid-loop
placement failure, commits at the end. -/
def allocate_chunks (sess : Session) (poolId volumeId : Nat) :
    (Nat × String) × Session :=
  match findPool sess.pending poolId, findVolume sess.pending volumeId with
  | some pool, some volume =>
    let chunkCount := (ratCeil (volume.sizeGb * 256)).toNat
    let rc := get_replica_count pool.protectionPolicy
    let availableSds := sess.pending.sdss.filter (fun n =>
      n.pdId == pool.pdId && n.state == SDSNodeState.up)
    if availableSds.length < rc then
      ((0, "Insufficient SDS nodes for replication"), sess)
    else
      let r := allocate_chunks_go availableSds rc volumeId chunkCount 0
        sess.pending
      if r.2.1 then
        ((r.1, "Created chunks"), Session.commit { sess with pending := r.2.2 })
      else
        ((r.1, "Failed to place replicas"), Session.rollback sess)
  | _, _ => ((0, "Pool or volume not found"), sess)

/-- `StorageEngine.extend_volume_capacity`: thin volumes extend without
any accounting or size change; thick volumes check free capacity, then
add `additional_gb` to the pool's used and reserved counters and to the
volume size, and commit. -/
def extend_volume_capacity (sess : Session) (poolId volumeId : Nat)
    (additionalGb : Q) : (Bool × String) × Session :=
  if additionalGb ≤ 0 then ((false, "Extension size must be positive"), sess)
  else
    match findPool sess.pending poolId, findVolume sess.pending volumeId with
    | some pool, some volume =>
      if volume.provisioning = .thin then
        ((true, "Thin volume extended (on-demand)"), sess)
      else
        let available := pool.totalCapacityGb -
          (pool.usedCapacityGb + pool.reservedCapacityGb)
        if available < additionalGb then
          ((false, "Insufficient capacity for extension"), sess)
        else
          let p1 := updatePool sess.pending poolId (fun p =>
            { p with reservedCapacityGb := p.reservedCapacityGb + additionalGb,
                     usedCapacityGb := p.usedCapacityGb + additionalGb })
          let p2 := updateVolume p1 volumeId (fun v =>
            { v with sizeGb := v.sizeGb + additionalGb })
          ((true, "Volume extended"),
           Session.commit { sess with pending := p2 })
    | _, _ => ((false, "Pool or volume not found"), sess)

/-- `StorageEngine.update_pool_health`: FAILED on any chunk with zero
available replicas, DEGRADED on any chunk with exactly one available
replica or any DOWN node in the protection domain, OK otherwise. -/
def update_pool_health (st : ClusterState) (poolId : Nat) : ClusterState :=
  match findPool st poolId with
  | none => st
  | some pool =>
    let downCount := (st.sdss.filter (fun n =>
      n.pdId == pool.pdId && n.state == SDSNodeState.down)).length
    let poolChunks := (poolVolumes st poolId).flatMap
      (fun v => volumeChunks st v.volumeId)
    let dataLoss := poolChunks.any (fun c => availCount st c.chunkId == 0)
    let poolDegraded := poolChunks.any (fun c =>
      availCount st c.chunkId != 0 && availCount st c.chunkId < 2)
    let health :=
      if dataLoss then PoolHealth.failedPool
      else if poolDegraded || 0 < downCount then PoolHealth.degradedPool
      else PoolHealth.ok
    updatePool st poolId (fun p => { p with health := health })

/-- Per-chunk body of `StorageEngine.mark_chunks_degraded`: if the chunk
has a replica on the failed SDS, mark that replica unavailable, then
mark the chunk degraded when fewer than 2 replicas remain available. -/
def markChunkStep (sdsId : Nat) (acc : Nat × ClusterState) (c : ChunkRow) :
    Nat × ClusterState :=
  let st := acc.2
  match st.replicas.find? (fun r => r.chunkId == c.chunkId && r.sdsId == sdsId) with
  | none => acc
  | some rep =>
    let st1 := updateReplica st rep.replicaId (fun r =>
      { r with isAvailable := false })
    if availCount st1 c.chunkId < 2 then
      (acc.1 + 1, updateChunk st1 c.chunkId (fun ch =>
        { ch with isDegraded := true }))
    else (acc.1, st1)

/-- `StorageEngine.mark_chunks_degraded` over all chunks of the pool's
volumes.  The degradation threshold is the literal `2` from the source,
independent of the pool's protection policy. -/
def mark_chunks_degraded (st : ClusterState) (sdsId poolId : Nat) :
    Nat × ClusterState :=
  (poolVolumes st poolId).foldl (fun acc v =>
    (volumeChunks acc.2 v.volumeId).foldl (markChunkStep sdsId) acc)
    (0, st)

/-- Per-chunk body of `StorageEngine.heal_chunks_on_recovery`: clear
`is_degraded` once at least 2 replicas are available. -/
def healChunkStep (acc : Nat × ClusterState) (c : ChunkRow) :
    Nat × ClusterState :=
  let st := acc.2
  if c.isDegraded then
    if 2 ≤ availCount st c.chunkId then
      (acc.1 + 1, updateChunk st c.chunkId (fun ch =>
        { ch with isDegraded := false }))
    else acc
  else acc

/-- `StorageEngine.heal_chunks_on_recovery` over all chunks of the
pool's volumes; threshold again the literal `2`. -/
def heal_chunks_on_recovery (st : ClusterState) (_sdsId poolId : Nat) :
    Nat × ClusterState :=
  (poolVolumes st poolId).foldl (fun acc v =>
    (volumeChunks acc.2 v.volumeId).foldl healChunkStep acc)
    (0, st)

/-! ## Rebuild engine (`mdm/services/rebuild_engine.py`) -/

/-- First-occurrence deduplication (the iteration order the embedding
fixes for Python's `set` of affected pools). -/
def dedupFirstAux : List Nat → List Nat → List Nat
  | [], acc => acc.reverse
  | x :: xs, acc =>
    if acc.contains x then dedupFirstAux xs acc
    else dedupFirstAux xs (x :: acc)

def dedupFirst (l : List Nat) : List Nat := dedupFirstAux l []

/-- Pools owning a volume with a chunk replicated on the given SDS. -/
def affectedPools (st : ClusterState) (sdsId : Nat) : List Nat :=
  dedupFirst ((st.replicas.filter (fun r => r.sdsId == sdsId)).filterMap
    (fun r => (st.chunks.find? (fun c => c.chunkId == r.chunkId)).bind
      (fun c => (findVolume st c.volumeId).map (fun v => v.poolId))))

/-- `RebuildEngine._find_rebuild_target`: among `UP` nodes of the pool's
protection domain not already holding a non-rebuilding replica of the
chunk, pick the best by fault-set bonus (1000 when the node's fault set
is unused or absent) plus free capacity, stable-descending. -/
def find_rebuild_target (st : ClusterState) (pool : StoragePool)
    (c : ChunkRow) : Option SDSNode :=
  let existing := (chunkReplicas st c.chunkId).filter (fun r => !r.isRebuilding)
  let existingSds := existing.map (fun r => r.sdsId)
  let existingFs := existing.filterMap (fun r =>
    (findSds st r.sdsId).bind (fun n => n.faultSetId))
  let avail := st.sdss.filter (fun n =>
    n.pdId == pool.pdId && n.state == SDSNodeState.up &&
      !(existingSds.contains n.sdsId))
  let score := fun (n : SDSNode) =>
    (if (match n.faultSetId with
         | none => true
         | some f => !(existingFs.contains f)) then (1000 : Q) else 0) +
    (n.totalCapacityGb - n.usedCapacityGb)
  (sortDescBy score avail).head?

/-- Per-chunk body of the replica-creation loop of
`RebuildEngine.start_rebuild`: place one rebuilding replica on the
chosen target, if any. -/
def rebuildChunkStep (pool : StoragePool) (acc : ClusterState)
    (c : ChunkRow) : ClusterState :=
  match find_rebuild_target acc pool c with
  | none => acc
  | some t =>
    let rep : ReplicaRow :=
      ⟨acc.nextReplicaId, c.chunkId, t.sdsId, false, false, true⟩
    { acc with
        replicas := acc.replicas ++ [rep],
        nextReplicaId := acc.nextReplicaId + 1 }

/-- `RebuildEngine.start_rebuild`.  `total_bytes_to_rebuild` is set to
`len(degraded_chunks) * REBUILD_CHUNK_SIZE_MB`, i.e. a count of
*megabytes* stored in the bytes field — exactly as in the source.  One
`Replica(is_available=False, is_current=False, is_rebuilding=True)` is
created per degraded chunk that has a target. -/
def start_rebuild (st : ClusterState) (now : Int) (poolId : Nat) :
    Bool × String × ClusterState :=
  match findPool st poolId with
  | none => (false, "Pool not found", st)
  | some pool =>
    if (st.jobs.find? (fun j =>
        j.poolId == poolId && j.state == RebuildState.inProgress)).isSome then
      (false, "Rebuild already in progress", st)
    else
      let degradedChunks := (poolVolumes st poolId).flatMap (fun v =>
        (volumeChunks st v.volumeId).filter (fun c => c.isDegraded))
      if degradedChunks.isEmpty then
        (false, "No degraded chunks to rebuild", st)
      else
        let totalBytes : Q := degradedChunks.length * 4
        let job : RebuildJobRow :=
          ⟨st.nextJobId, poolId, RebuildState.inProgress, 0, totalBytes,
           0, 0, pool.rebuildRateLimitMbps, now, none⟩
        let st1 : ClusterState :=
          { st with jobs := st.jobs ++ [job], nextJobId := st.nextJobId + 1 }
        let st2 := degradedChunks.foldl (rebuildChunkStep pool) st1
        let st3 := updatePool st2 poolId (fun p =>
          { p with rebuildState := RebuildState.inProgress,
                   rebuildProgressPercent := 0 })
        (true, "Rebuild started", st3)

/-- Per-pool body of `RebuildEngine.fail_sds_node`: degrade the pool's
chunks, set the pool DEGRADED / IDLE and auto-start its rebuild. -/
def failPoolStep (now : Int) (sdsId : Nat) (acc : ClusterState) (pid : Nat) :
    ClusterState :=
  match findPool acc pid with
  | none => acc
  | some _ =>
    let m := mark_chunks_degraded acc sdsId pid
    let a1 := updatePool m.2 pid (fun p =>
      { p with health := PoolHealth.degradedPool,
               rebuildState := RebuildState.idle })
    (start_rebuild a1 now pid).2.2

/-- `RebuildEngine.fail_sds_node`: mark the node DOWN, then run the
per-pool degradation on every affected pool. -/
def fail_sds_node (st : ClusterState) (now : Int) (sdsId : Nat) :
    Bool × String × ClusterState :=
  match findSds st sdsId with
  | none => (false, "SDS not found", st)
  | some sds =>
    if sds.state = SDSNodeState.down then (false, "SDS already DOWN", st)
    else
      let st1 := updateSds st sdsId (fun n =>
        { n with state := SDSNodeState.down })
      let st2 := (affectedPools st1 sdsId).foldl (failPoolStep now sdsId) st1
      (true, "SDS marked DOWN", st2)

/-- Per-pool body of `RebuildEngine.recover_sds_node`: heal the pool's
chunks, then re-evaluate the pool's health. -/
def healPoolStep (sdsId : Nat) (acc : ClusterState) (pid : Nat) :
    ClusterState :=
  match findPool acc pid with
  | none => acc
  | some _ => update_pool_health (heal_chunks_on_recovery acc sdsId pid).2 pid

/-- The recovering node marked UP
(`sds.state = SDSNodeState.UP` in the source). -/
def recoverSt1 (st : ClusterState) (sdsId : Nat) : ClusterState :=
  updateSds st sdsId (fun n => { n with state := SDSNodeState.up })

/-- The node's replicas (`Replica.sds_id == sds_id` query). -/
def recoverReps (st : ClusterState) (sdsId : Nat) : List ReplicaRow :=
  (recoverSt1 st sdsId).replicas.filter (fun r => r.sdsId == sdsId)

/-- The affected pools of the recovery pass, in first-occurrence
order. -/
def recoverPools (st : ClusterState) (sdsId : Nat) : List Nat :=
  dedupFirst ((recoverReps st sdsId).filterMap (fun r =>
    ((recoverSt1 st sdsId).chunks.find? (fun c => c.chunkId == r.chunkId)).bind
      (fun c => (findVolume (recoverSt1 st sdsId) c.volumeId).map
        (fun v => v.poolId))))

/-- The main branch of `RebuildEngine.recover_sds_node`: mark every
replica on the node available (rebuilding ones included), then heal and
re-evaluate health per affected pool. -/
def recover_finish (st : ClusterState) (sdsId : Nat) : ClusterState :=
  (recoverPools st sdsId).foldl (healPoolStep sdsId)
    ((recoverReps st sdsId).foldl (fun acc r =>
      updateReplica acc r.replicaId (fun x => { x with isAvailable := true }))
      (recoverSt1 st sdsId))

/-- `RebuildEngine.recover_sds_node`: mark the node UP and run the
recovery pass. -/
def recover_sds_node (st : ClusterState) (sdsId : Nat) :
    Bool × String × ClusterState :=
  match findSds st sdsId with
  | none => (false, "SDS not found", st)
  | some sds =>
    if sds.state ≠ SDSNodeState.down then (false, "SDS not DOWN", st)
    else (true, "SDS recovered", recover_finish st sdsId)

/-! The `sql_update(RebuildJob)` payloads of the progress tick, named so
they can be reasoned about individually. -/

def jobCompleteUpdate (now : Int) (j : RebuildJobRow) : RebuildJobRow :=
  { j with state := RebuildState.completed, completedAt := some now,
           progressPercent := 100 }

def jobProgressUpdate (b p : Int) (j : RebuildJobRow) : RebuildJobRow :=
  { j with bytesRebuilt := b, progressPercent := p }

def jobEstimateUpdate (e : Int) (j : RebuildJobRow) : RebuildJobRow :=
  { j with estimatedTimeRemainingSeconds := e }

def jobStallUpdate (j : RebuildJobRow) : RebuildJobRow :=
  { j with state := RebuildState.stalled }

/-- `RebuildEngine.update_rebuild_progress`.  Note the source selects
`Replica.is_rebuilding == True` with **no pool filter**, completes the
first `int(rate*2^20 / 4*2^20)` of them cluster-wide, and adds their
bytes to this pool's job. -/
def update_rebuild_progress (st : ClusterState) (now : Int) (poolId : Nat) :
    Bool × String × ClusterState :=
  match st.jobs.find? (fun j =>
      j.poolId == poolId && j.state == RebuildState.inProgress) with
  | none => (false, "No active rebuild for pool", st)
  | some job =>
    match findPool st poolId with
    | none => (false, "Pool not found", st)
    | some pool =>
      let rebuilding := st.replicas.filter (fun r => r.isRebuilding)
      if rebuilding.isEmpty then
        let st1 := updateJobsByPool st poolId (jobCompleteUpdate now)
        let poolChunks := (poolVolumes st1 poolId).flatMap (fun v =>
          volumeChunks st1 v.volumeId)
        let st2 := poolChunks.foldl (fun acc c =>
          if c.isDegraded ∧ 2 ≤ availCount acc c.chunkId then
            updateChunk acc c.chunkId (fun ch => { ch with isDegraded := false })
          else acc) st1
        let st3 := updatePool st2 poolId (fun p =>
          { p with rebuildState := RebuildState.completed,
                   rebuildProgressPercent := 100 })
        (true, "Rebuild completed", update_pool_health st3 poolId)
      else
        let bytesPerTick : Q := pool.rebuildRateLimitMbps * 1048576
        let chunkSizeBytes : Q := 4194304
        let toComplete := (ratTrunc (bytesPerTick / chunkSizeBytes)).toNat
        let completedList := rebuilding.take toComplete
        let st1 := completedList.foldl (fun acc r =>
          updateReplica acc r.replicaId (fun x =>
            { x with isRebuilding := false, isAvailable := true })) st
        let bytesCompleted : Q := completedList.length * 4194304
        let newBytes : Q := job.bytesRebuilt + bytesCompleted
        let newProgress : Q :=
          if 0 < job.totalBytesToRebuild then
            newBytes / job.totalBytesToRebuild * 100
          else 0
        let st2 := updateJobsByPool st1 poolId
          (jobProgressUpdate (ratTrunc newBytes) (ratTrunc newProgress))
        let st3 :=
          if 0 < job.currentRebuildRateMbps then
            updateJobsByPool st2 poolId (jobEstimateUpdate
              (ratTrunc ((job.totalBytesToRebuild - newBytes) /
                (job.currentRebuildRateMbps * 1048576))))
          else st2
        let st4 :=
          if 60 < now - job.startedAt ∧ newBytes = 0 then
            updatePool (updateJobsByPool st3 poolId jobStallUpdate) poolId
              (fun p => { p with rebuildState := RebuildState.stalled })
          else st3
        let st5 := updatePool st4 poolId (fun p =>
          { p with rebuildProgressPercent := ratTrunc newProgress })
        (true, "Rebuild progress", st5)

/-! ## Volume manager (`mdm/services/volume_manager.py`) -/

/-- `ProvisioningType[provisioning.upper()]` for the lower-case wire
values. -/
def parseProvisioning (s : String) : Option ProvisioningType :=
  if s == "thin" then some ProvisioningType.thin
  else if s == "thick" then some ProvisioningType.thick
  else none

/-- The tail of `VolumeManager.create_volume` after capacity
allocation succeeded: allocate chunks, discover the replica SDS nodes,
mark the volume AVAILABLE and commit — or roll back the current
transaction (which cannot undo what `allocate_capacity` already
committed). -/
def create_volume_finish (sess2 : Session) (poolId vid : Nat) :
    (Bool × Option Nat × String) × ClusterState :=
  let chunks := allocate_chunks sess2 poolId vid
  if chunks.1.1 == 0 then
    ((false, none, "Failed to allocate chunks"),
     (Session.rollback chunks.2).committed)
  else
    let pend := chunks.2.pending
    let replicaRows := (volumeChunks pend vid).flatMap (fun c =>
      chunkReplicas pend c.chunkId)
    if replicaRows.isEmpty then
      ((false, none, "Failed to discover replica SDS nodes"),
       (Session.rollback chunks.2).committed)
    else
      let sess4 : Session :=
        { chunks.2 with pending := updateVolume pend vid (fun v =>
            { v with state := VolumeState.availableVol }) }
      ((true, some vid, "Volume created"),
       (Session.commit sess4).committed)

/-- `VolumeManager.create_volume`.  The returned state is what remains
durably committed after the call: `allocate_capacity` commits its pool
update (and the freshly inserted volume row) before chunk allocation
runs, so a later `rollback()` cannot undo them. -/
def create_volume (db : ClusterState) (poolId : Nat) (name : String)
    (sizeGb : Q) (provisioning : String) :
    (Bool × Option Nat × String) × ClusterState :=
  match findPool db poolId with
  | none => ((false, none, "Pool not found"), db)
  | some _ =>
    if db.volumes.any (fun v => v.name == name) then
      ((false, none, "Volume name already exists"), db)
    else if sizeGb ≤ 0 then
      ((false, none, "Volume size must be positive"), db)
    else
      match parseProvisioning provisioning with
      | none => ((false, none, "Invalid provisioning type"), db)
      | some prov =>
        let vid := db.nextVolumeId
        let sess0 := Session.start db
        let row : VolumeRow :=
          ⟨vid, poolId, name, sizeGb, prov, VolumeState.creating, 0, 0⟩
        let sess1 : Session :=
          { sess0 with pending :=
              { sess0.pending with
                  volumes := sess0.pending.volumes ++ [row],
                  nextVolumeId := vid + 1 } }
        let cap := allocate_capacity sess1 poolId vid
        if ¬ cap.1.1 then
          ((false, none, cap.1.2), (Session.rollback cap.2).committed)
        else
          create_volume_finish cap.2 poolId vid

/-- `VolumeManager.extend_volume`: extend capacity (thick only — the
thin branch of `extend_volume_capacity` changes nothing), then run the
full `allocate_chunks` for the volume again; its chunk count is not
checked. -/
def extend_volume (db : ClusterState) (volumeId : Nat) (additionalGb : Q) :
    (Bool × String) × ClusterState :=
  match findVolume db volumeId with
  | none => ((false, "Volume not found"), db)
  | some volume =>
    if additionalGb ≤ 0 then ((false, "Extension size must be positive"), db)
    else
      let sess0 := Session.start db
      let ext := extend_volume_capacity sess0 volume.poolId volumeId additionalGb
      if ¬ ext.1.1 then ((false, ext.1.2), db)
      else
        let chunks := allocate_chunks ext.2 volume.poolId volumeId
        ((true, "Volume extended"), (Session.commit chunks.2).committed)

/-! ## Concrete scenarios used by the theorems -/

/-- A pool in PD 1 with `two_copies` but a single `UP` SDS node. -/
def dbOneSds : ClusterState :=
  ⟨[⟨1, 1, none, 1000, 0, SDSNodeState.up⟩],
   [⟨1, 1, ProtectionPolicy.twoCopies, 100, 0, 0, 100, PoolHealth.ok,
     RebuildState.idle, 0⟩],
   [], [], [], [], 1, 1, 1, 1⟩

/-- A healthy two-node pool with some capacity already in use. -/
def dbTwoSds : ClusterState :=
  ⟨[⟨1, 1, none, 1000, 0, SDSNodeState.up⟩,
    ⟨2, 1, none, 1000, 0, SDSNodeState.up⟩],
   [⟨1, 1, ProtectionPolicy.twoCopies, 100, 5, 2, 100, PoolHealth.ok,
     RebuildState.idle, 0⟩],
   [], [], [], [], 1, 1, 1, 1⟩

/-- A pool with one degraded chunk after SDS 1 failed: replica 1 on the
DOWN node is unavailable, replica 2 on SDS 2 is available, SDS 3 is a
free rebuild target.  Rebuild rate limit 100 MB/s. -/
def dbDegraded : ClusterState :=
  ⟨[⟨1, 1, none, 1000, 0, SDSNodeState.down⟩,
    ⟨2, 1, none, 1000, 0, SDSNodeState.up⟩,
    ⟨3, 1, none, 1000, 0, SDSNodeState.up⟩],
   [⟨1, 1, ProtectionPolicy.twoCopies, 100, 0, 0, 100,
     PoolHealth.degradedPool, RebuildState.idle, 0⟩],
   [⟨1, 1, "v1", 1/256, ProvisioningType.thick, VolumeState.availableVol, 0,
     1/256⟩],
   [⟨1, 1, 0, true⟩],
   [⟨1, 1, 1, false, true, false⟩, ⟨2, 1, 2, true, true, false⟩],
   [], 2, 2, 3, 1⟩

/-- An `erasure_coding` pool (3-way) with one chunk fully replicated on
three `UP` nodes. -/
def dbErasure : ClusterState :=
  ⟨[⟨1, 1, none, 1000, 0, SDSNodeState.up⟩,
    ⟨2, 1, none, 1000, 0, SDSNodeState.up⟩,
    ⟨3, 1, none, 1000, 0, SDSNodeState.up⟩],
   [⟨1, 1, ProtectionPolicy.erasureCoding, 100, 0, 0, 100, PoolHealth.ok,
     RebuildState.idle, 0⟩],
   [⟨1, 1, "v1", 1/256, ProvisioningType.thick, VolumeState.availableVol, 0,
     1/256⟩],
   [⟨1, 1, 0, false⟩],
   [⟨1, 1, 1, true, true, false⟩, ⟨2, 1, 2, true, true, false⟩,
    ⟨3, 1, 3, true, true, false⟩],
   [], 2, 2, 4, 1⟩

/-- Two pools, each with one degraded chunk and one in-progress rebuild
job (rate 4 MB/s, so one chunk per tick).  The rebuilding replica of
pool 2's chunk (id 3) precedes pool 1's (id 4) in the replica table. -/
def dbTwoPools : ClusterState :=
  ⟨[⟨1, 1, none, 1000, 0, SDSNodeState.up⟩,
    ⟨2, 1, none, 1000, 0, SDSNodeState.up⟩],
   [⟨1, 1, ProtectionPolicy.twoCopies, 100, 0, 0, 4,
     PoolHealth.degradedPool, RebuildState.inProgress, 0⟩,
    ⟨2, 1, ProtectionPolicy.twoCopies, 100, 0, 0, 4,
     PoolHealth.degradedPool, RebuildState.inProgress, 0⟩],
   [⟨1, 1, "v1", 1/256, ProvisioningType.thick, VolumeState.availableVol, 0,
     1/256⟩,
    ⟨2, 2, "v2", 1/256, ProvisioningType.thick, VolumeState.availableVol, 0,
     1/256⟩],
   [⟨1, 1, 0, true⟩, ⟨2, 2, 0, true⟩],
   [⟨3, 2, 1, false, false, true⟩,
    ⟨4, 1, 2, false, false, true⟩,
    ⟨1, 1, 1, true, true, false⟩, ⟨2, 2, 2, true, true, false⟩],
   [⟨1, 1, RebuildState.inProgress, 0, 4, 0, 0, 4, 0, none⟩,
    ⟨2, 2, RebuildState.inProgress, 0, 4, 0, 0, 4, 0, none⟩],
   3, 3, 5, 3⟩

/-- A token authority store whose only token is already `CONSUMED` at
time 5. -/
def authConsumed : AuthorityState :=
  ⟨[⟨"t", 1, 1, "write", 0, 4, 100, "sig", "CONSUMED", some 5⟩], []⟩

/-- The signature MDM issues for the reference token of the tampering
checks. -/
def sigRef : String := sign_token "t" 1 "write" "s" 0 4

/-! ## The degraded-flag invariant and store well-formedness (for C6) -/

/-- Available replicas of a chunk, at the replica-table level
(`availCount` with the table passed explicitly). -/
def availCountL (rs : List ReplicaRow) (cid : Nat) : Nat :=
  (rs.filter (fun r => r.chunkId == cid && r.isAvailable)).length

/-- The threshold-2 degradation invariant the storage engine actually
maintains: a chunk is flagged degraded exactly when fewer than 2 of its
replicas are available. -/
def InvDeg (s : ClusterState) : Prop :=
  ∀ c ∈ s.chunks, (c.isDegraded = true ↔ availCountL s.replicas c.chunkId < 2)

/-- Referential well-formedness of the metadata store: distinct primary
keys, fresh id counters, and every replica reachable to a pool through
its chunk and volume. -/
def WFState (s : ClusterState) : Prop :=
  (s.replicas.map (fun r => r.replicaId)).Nodup ∧
  (s.chunks.map (fun c => c.chunkId)).Nodup ∧
  (s.volumes.map (fun v => v.volumeId)).Nodup ∧
  (∀ r ∈ s.replicas, r.replicaId < s.nextReplicaId) ∧
  (∀ r ∈ s.replicas, ∃ c ∈ s.chunks, c.chunkId = r.chunkId) ∧
  (∀ c ∈ s.chunks, ∃ v ∈ s.volumes, v.volumeId = c.volumeId) ∧
  (∀ v ∈ s.volumes, ∃ p ∈ s.pools, p.poolId = v.poolId)

instance (s : ClusterState) : Decidable (InvDeg s) := by
  unfold InvDeg; infer_instance

instance (s : ClusterState) : Decidable (WFState s) := by
  unfold WFState; infer_instance

/-- Replica-table well-formedness: the part of `WFState` that the
failure path needs and preserves. -/
def RWF (s : ClusterState) : Prop :=
  (s.replicas.map (fun r => r.replicaId)).Nodup ∧
  (∀ r ∈ s.replicas, r.replicaId < s.nextReplicaId)

/-- The invariant carried along the per-pool heal fold of
`recover_sds_node`, relative to the state `s0` entering the fold and
the list `done` of pools already processed: replica, volume and pool
tables are essentially untouched, chunk rows keep their keys, degraded
flags only ever drop, a drop certifies at least 2 available replicas,
and every still-degraded chunk of a processed pool really has fewer
than 2 available replicas. -/
def HealInv (s0 : ClusterState) (done : List Nat) (st : ClusterState) : Prop :=
  st.replicas = s0.replicas ∧
  st.volumes = s0.volumes ∧
  st.pools.map (fun p => p.poolId) = s0.pools.map (fun p => p.poolId) ∧
  st.chunks.map (fun c => (c.chunkId, c.volumeId)) =
    s0.chunks.map (fun c => (c.chunkId, c.volumeId)) ∧
  (∀ c' ∈ st.chunks, c'.isDegraded = true → c' ∈ s0.chunks) ∧
  (∀ c' ∈ st.chunks, c'.isDegraded = false →
    (∃ c ∈ s0.chunks, c.chunkId = c'.chunkId ∧ c.isDegraded = false) ∨
    2 ≤ availCountL s0.replicas c'.chunkId) ∧
  (∀ c' ∈ st.chunks, c'.isDegraded = true →
    ∀ v ∈ s0.volumes, v.volumeId = c'.volumeId → v.poolId ∈ done →
      availCountL s0.replicas c'.chunkId < 2)

/-! # Claims -/

/-- FIPS 180-2 test vector validating the SHA-256 embedding against
Python `hashlib`. -/
theorem sha256_abc_vector : hexOfBytes (sha256 (strBytes "abc")) =
    "ba7816bf8f01cfea414140de5dae2223b00361a396177a9cb410ff61f20015ad" := by
  decide

/-- C1 (code bug): `start_rebuild` stores
`total_bytes_to_rebuild = degraded_chunks * REBUILD_CHUNK_SIZE_MB`
(megabytes) while the progress tick accumulates `bytes_rebuilt` in
bytes, so with one degraded 4 MiB chunk and a 100 MB/s rate limit a
single tick yields `progress_percent = 104857600` (not bounded by 100),
and at COMPLETED `bytes_rebuilt = 4194304` differs from
`total_bytes_to_rebuild = 4` and from
`degraded_chunks * chunk_size_bytes = 4194304` only by accident of the
mismatched units. -/
theorem c1_rebuild_progress_unit_mismatch :
    ((start_rebuild dbDegraded 0 1).2.2.jobs.map
        (fun j => j.totalBytesToRebuild) = [4]) ∧
    (4 ≠ (1 * 4194304 : Q)) ∧
    ((update_rebuild_progress (start_rebuild dbDegraded 0 1).2.2 1 1).2.2.jobs.map
        (fun j => (j.bytesRebuilt, j.progressPercent)) = [(4194304, 104857600)]) ∧
    ¬ (104857600 : Int) ≤ 100 ∧
    ((update_rebuild_progress
        (update_rebuild_progress (start_rebuild dbDegraded 0 1).2.2 1 1).2.2
        2 1).2.2.jobs.map
        (fun j => (j.state, j.bytesRebuilt, j.totalBytesToRebuild)) =
      [(RebuildState.completed, 4194304, 4)]) ∧
    ((4194304 : Q) ≠ 4) := by
  decide

/-- C2 (code bug): creating a thick 10 GB volume on a `two_copies` pool
with a single `UP` SDS is rejected, but `allocate_capacity` has already
committed both the new volume row (state CREATING) and the pool's
used/reserved increments, so the later rollback leaves partial state
behind. -/
theorem c2_create_volume_partial_state :
    ((create_volume dbOneSds 1 "v1" 10 "thick").1 =
      (false, none, "Failed to allocate chunks")) ∧
    (dbOneSds.volumes = []) ∧
    (dbOneSds.pools.map (fun p => (p.usedCapacityGb, p.reservedCapacityGb)) =
      [(0, 0)]) ∧
    ((create_volume dbOneSds 1 "v1" 10 "thick").2.volumes.map
        (fun v => (v.volumeId, v.name, v.state)) =
      [(1, "v1", VolumeState.creating)]) ∧
    ((create_volume dbOneSds 1 "v1" 10 "thick").2.pools.map
        (fun p => (p.usedCapacityGb, p.reservedCapacityGb)) = [(10, 10)]) := by
  decide

/-- C4: signing a token and verifying it against the same fields and
secret yields valid, and changing the token id, volume, operation,
offset, length, secret, or the signature itself yields invalid (shown
on the reference token `("t", 1, "write", 0, 4)` under secret `"s"`). -/
theorem c4_token_sign_verify_roundtrip :
    (∀ (tokenId : String) (volumeId : Int) (operation clusterSecret : String)
        (offsetBytes lengthBytes : Int),
      verify_token tokenId volumeId operation
        (sign_token tokenId volumeId operation clusterSecret offsetBytes
          lengthBytes)
        clusterSecret offsetBytes lengthBytes = true) ∧
    (verify_token "u" 1 "write" sigRef "s" 0 4 = false ∧
     verify_token "t" 2 "write" sigRef "s" 0 4 = false ∧
     verify_token "t" 1 "read" sigRef "s" 0 4 = false ∧
     verify_token "t" 1 "write" sigRef "s" 1 4 = false ∧
     verify_token "t" 1 "write" sigRef "s" 0 5 = false ∧
     verify_token "t" 1 "write" sigRef "x" 0 4 = false ∧
     verify_token "t" 1 "write" (String.append "0" sigRef) "s" 0 4 = false) :=
  ⟨fun _ _ _ _ _ _ => by simp [verify_token, compare_digest], by decide⟩

/-- C7 (code bug): `extend_volume` reruns `allocate_chunks` for the full
new size, so a thick volume of 1/64 GB (4 chunks) extended by 1/64 GB
ends with 12 chunks — the pre-existing 4 plus 8 freshly allocated ones
whose logical offsets restart at 0 — instead of the claimed
`ceil(S'/chunk_size) = 8`; for a thin volume even the recorded size is
left unchanged. -/
theorem c7_extend_reallocates_full_volume :
    (((create_volume dbTwoSds 1 "v1" (1/64) "thick").2).chunks.length = 4) ∧
    ((extend_volume (create_volume dbTwoSds 1 "v1" (1/64) "thick").2 1
        (1/64)).1 = (true, "Volume extended")) ∧
    ((extend_volume (create_volume dbTwoSds 1 "v1" (1/64) "thick").2 1
        (1/64)).2.volumes.map (fun v => v.sizeGb) = [1/32]) ∧
    ((extend_volume (create_volume dbTwoSds 1 "v1" (1/64) "thick").2 1
        (1/64)).2.chunks.length = 12) ∧
    ((12 : Nat) ≠ (ratCeil ((1/32) * 256)).toNat) ∧
    ((extend_volume (create_volume dbTwoSds 1 "v1" (1/64) "thick").2 1
        (1/64)).2.chunks.map (fun c => c.logicalOffsetMb) =
      [0, 4, 8, 12, 0, 4, 8, 12, 16, 20, 24, 28]) ∧
    ((extend_volume (create_volume dbTwoSds 1 "v1" (1/64) "thin").2 1
        (1/64)).2.volumes.map (fun v => v.sizeGb) = [1/64]) := by
  decide

/-- C5 counterexample: a fully valid token whose `expires_at` is 100 is
accepted by the SDS verifier at `now = 100` — verification at exactly
`expires_at` succeeds, contradicting the claim that it fails. -/
theorem c5_valid_at_expiry_counterexample :
    verify_io_token [] "s" 100
      ⟨"t", 1, 1, "write", 0, 4, sign_token "t" 1 "write" "s" 0 4, 100⟩
      1 5 "write" 0 4 = (true, none) := by
  decide

/-- C6 counterexample: on an `erasure_coding` pool (required replica
count 3), failing one of the three replica holders leaves the chunk with
2 available replicas — strictly fewer than the policy's requirement —
yet `mark_chunks_degraded` compares against the literal 2 and leaves
`is_degraded = false`. -/
theorem c6_policy_threshold_counterexample :
    ((fail_sds_node dbErasure 0 1).1 = true) ∧
    ((fail_sds_node dbErasure 0 1).2.2.pools.map (fun p => p.protectionPolicy) =
      [ProtectionPolicy.erasureCoding]) ∧
    (get_replica_count ProtectionPolicy.erasureCoding = 3) ∧
    (availCount (fail_sds_node dbErasure 0 1).2.2 1 = 2) ∧
    ((fail_sds_node dbErasure 0 1).2.2.chunks.map (fun c => c.isDegraded) =
      [false]) := by
  decide

/-- C8 counterexample: a successful thin volume creation leaves the
pool's `used_capacity_gb` unchanged (5 before and after) and instead
adds the 0.1 GB metadata reserve to `reserved_capacity_gb` (2 → 2.1),
contradicting the claim that `used` increases by the reserve. -/
theorem c8_thin_charges_reserved_counterexample :
    ((create_volume dbTwoSds 1 "v1" (1/256) "thin").1.1 = true) ∧
    (dbTwoSds.pools.map (fun p => (p.usedCapacityGb, p.reservedCapacityGb)) =
      [(5, 2)]) ∧
    ((create_volume dbTwoSds 1 "v1" (1/256) "thin").2.pools.map
        (fun p => (p.usedCapacityGb, p.reservedCapacityGb)) =
      [(5, 21/10)]) := by
  decide

/-- C9 counterexample: acknowledging success for a token already
`CONSUMED` at time 5 rewrites `consumed_at` to the new time 9 (and
appends another ack row), contradicting the claim that a further
successful ack leaves the token's `consumed_at` unchanged. -/
theorem c9_ack_overwrites_consumed_at_counterexample :
    (authConsumed.tokens.map (fun t => (t.status, t.consumedAt)) =
      [("CONSUMED", some 5)]) ∧
    ((record_transaction_ack 9 authConsumed "t" 2 true (some 4)).2.tokens.map
        (fun t => (t.status, t.consumedAt)) = [("CONSUMED", some 9)]) ∧
    ((record_transaction_ack 9 authConsumed "t" 2 true (some 4)).2.acks.length
      = 1) := by
  decide

/-- C10 counterexample: a progress tick for pool 1 completes replica 3 —
a rebuilding replica of chunk 2, which belongs to volume 2 in pool 2 —
marking it available/not-rebuilding and crediting its 4 MiB to pool 1's
job, while pool 1's own rebuilding replica (id 4) stays untouched. -/
theorem c10_tick_crosses_pools_counterexample :
    ((dbTwoPools.volumes.map (fun v => (v.volumeId, v.poolId))) =
      [(1, 1), (2, 2)]) ∧
    ((dbTwoPools.chunks.map (fun c => (c.chunkId, c.volumeId))) =
      [(1, 1), (2, 2)]) ∧
    ((dbTwoPools.replicas.find? (fun r => r.replicaId == 3)).map
        (fun r => (r.chunkId, r.isAvailable, r.isRebuilding)) =
      some (2, false, true)) ∧
    (((update_rebuild_progress dbTwoPools 1 1).2.2.replicas.find?
        (fun r => r.replicaId == 3)).map
        (fun r => (r.chunkId, r.isAvailable, r.isRebuilding)) =
      some (2, true, false)) ∧
    ((update_rebuild_progress dbTwoPools 1 1).2.2.jobs.map
        (fun j => (j.jobId, j.bytesRebuilt)) = [(1, 4194304), (2, 0)]) := by
  decide

/-- C9 (amended): `record_transaction_ack` always appends the ack row;
on success it sets every matching token `CONSUMED` with
`consumed_at = now` — *unconditionally*, overwriting the timestamp even
when the token was already consumed; on failure, and when the token id
is unknown, the token table is untouched. -/
theorem c9_record_ack_semantics (now : Int) (s : AuthorityState)
    (tokenId : String) (sdsId : Int) (success : Bool) (bp : Option Int) :
    ((record_transaction_ack now s tokenId sdsId success bp).2.acks =
      s.acks ++ [⟨tokenId, sdsId, success, bp, now⟩]) ∧
    ((record_transaction_ack now s tokenId sdsId success bp).1 =
      ⟨tokenId, sdsId, success, bp, now⟩) ∧
    (success = false →
      (record_transaction_ack now s tokenId sdsId success bp).2.tokens =
        s.tokens) ∧
    (success = true → (∀ t ∈ s.tokens, ¬ t.tokenId = tokenId) →
      (record_transaction_ack now s tokenId sdsId success bp).2.tokens =
        s.tokens) ∧
    (success = true → (∃ t ∈ s.tokens, t.tokenId = tokenId) →
      (record_transaction_ack now s tokenId sdsId success bp).2.tokens =
        s.tokens.map (fun t =>
          if t.tokenId == tokenId then
            { t with status := "CONSUMED", consumedAt := some now }
          else t)) := by
  unfold record_transaction_ack mark_token_consumed
  cases success with
  | false => simp
  | true =>
    cases h : s.tokens.find? (fun t => t.tokenId == tokenId) with
    | none =>
      refine ⟨by simp [h], by simp [h], by simp, by simp [h], fun _ hex => ?_⟩
      obtain ⟨t, ht, hid⟩ := hex
      have := List.find?_eq_none.mp h t ht
      simp [hid] at this
    | some t =>
      refine ⟨by simp [h], by simp [h], by simp, fun _ hall => ?_, by simp [h]⟩
      have hmem := List.mem_of_find?_eq_some h
      have hpred := List.find?_some h
      simp at hpred
      exact absurd hpred (hall t hmem)

/-- C9 amended witness at the concrete consumed-token store. -/
theorem c9_record_ack_semantics_witness :
    (record_transaction_ack 9 authConsumed "t" 2 true (some 4)).2.tokens =
      authConsumed.tokens.map (fun t =>
        if t.tokenId == "t" then
          { t with status := "CONSUMED", consumedAt := some 9 }
        else t) :=
  (c9_record_ack_semantics 9 authConsumed "t" 2 true (some 4)).2.2.2.2
    rfl ⟨⟨"t", 1, 1, "write", 0, 4, 100, "sig", "CONSUMED", some 5⟩,
      by decide, rfl⟩

/-! Helper lemmas for the SDS verifier. -/

theorem find?_append_of_none {α : Type} {p : α → Bool} {l1 l2 : List α}
    (h : l1.find? p = none) : (l1 ++ l2).find? p = l2.find? p := by
  induction l1 with
  | nil => rfl
  | cons x xs ih =>
    rw [List.find?_cons] at h
    cases hx : p x with
    | true => simp [hx] at h
    | false =>
      simp only [hx] at h
      simpa [List.find?_cons, hx] using ih h

/-- A token that passes every check of `verify_io_token` is accepted. -/
theorem verify_io_token_valid_of (consumed : List ConsumedToken)
    (secret : String) (now : Int) (token : IOTokenPayload)
    (volumeId chunkId : Int) (operation : String) (off len : Int)
    (hid : token.tokenId ≠ "") (hop : token.operation ≠ "")
    (hsg : token.signature ≠ "")
    (hexp : ¬ token.expiresAt < now)
    (hnc : ∀ c ∈ consumed, ¬ c.tokenId = token.tokenId)
    (hsig : token.signature = sign_token token.tokenId token.volumeId
      token.operation secret token.offsetBytes token.lengthBytes)
    (hvol : token.volumeId = volumeId)
    (hopm : token.operation = operation)
    (hoff : token.offsetBytes ≤ off)
    (hlen : off + len ≤ token.offsetBytes + token.lengthBytes) :
    verify_io_token consumed secret now token volumeId chunkId operation off
      len = (true, none) := by
  have hf : consumed.find? (fun c => c.tokenId == token.tokenId) = none :=
    List.find?_eq_none.mpr (fun c hc => by simpa using hnc c hc)
  unfold verify_io_token
  rw [if_neg (by push_neg; exact ⟨hid, hop, hsg⟩)]
  rw [if_neg (by simp [is_token_expired]; omega)]
  rw [hf]
  rw [if_neg (by simp [verify_token, compare_digest, hsig])]
  rw [if_neg (by simpa using hvol)]
  rw [if_neg (by simpa using hopm)]
  rw [if_neg (by omega)]

/-- C5 (amended): the expiry comparison is `now > expires_at`, so an
otherwise valid token is *accepted* at `now = expires_at` and rejected
only strictly after: usability is `now ≤ expires_at`, not
`now < expires_at`. -/
theorem c5_expiry_is_strict (consumed : List ConsumedToken) (secret : String)
    (token : IOTokenPayload) (volumeId chunkId : Int) (operation : String)
    (off len : Int)
    (hid : token.tokenId ≠ "") (hop : token.operation ≠ "")
    (hsg : token.signature ≠ "")
    (hnc : ∀ c ∈ consumed, ¬ c.tokenId = token.tokenId)
    (hsig : token.signature = sign_token token.tokenId token.volumeId
      token.operation secret token.offsetBytes token.lengthBytes)
    (hvol : token.volumeId = volumeId)
    (hopm : token.operation = operation)
    (hoff : token.offsetBytes ≤ off)
    (hlen : off + len ≤ token.offsetBytes + token.lengthBytes) :
    (verify_io_token consumed secret token.expiresAt token volumeId chunkId
      operation off len = (true, none)) ∧
    (verify_io_token consumed secret (token.expiresAt + 1) token volumeId
      chunkId operation off len = (false, some "Token expired")) := by
  constructor
  · exact verify_io_token_valid_of consumed secret token.expiresAt token
      volumeId chunkId operation off len hid hop hsg (by omega) hnc hsig hvol
      hopm hoff hlen
  · unfold verify_io_token
    rw [if_neg (by push_neg; exact ⟨hid, hop, hsg⟩)]
    rw [if_pos (by simp [is_token_expired]; try omega)]

/-- C5 amended witness: the boundary behaviour evaluated on a concrete
signed token expiring at time 100. -/
theorem c5_expiry_is_strict_witness :
    (verify_io_token [] "s" 100
      ⟨"t", 1, 1, "write", 0, 4, sign_token "t" 1 "write" "s" 0 4, 100⟩
      1 5 "write" 0 4 = (true, none)) ∧
    (verify_io_token [] "s" 101
      ⟨"t", 1, 1, "write", 0, 4, sign_token "t" 1 "write" "s" 0 4, 100⟩
      1 5 "write" 0 4 = (false, some "Token expired")) :=
  c5_expiry_is_strict [] "s"
    ⟨"t", 1, 1, "write", 0, 4, sign_token "t" 1 "write" "s" 0 4, 100⟩
    1 5 "write" 0 4 (by decide) (by decide) (by decide) (by simp) rfl rfl rfl
    (by decide) (by decide)

/-- C3: submitting the same fully valid write frame twice executes
exactly one write (one new COMMITTED journal entry, one replica
generation bump), leaves exactly one consumed-token record for the
token id, and rejects the second attempt as a replay because the token
id is already in the consumed-tokens table. -/
theorem c3_write_replay (secret : String) (now : Int) (s : SDSState)
    (req : WriteRequest)
    (hid : req.token.tokenId ≠ "") (hsg : req.token.signature ≠ "")
    (hop : req.token.operation = "write")
    (hexp : ¬ req.token.expiresAt < now)
    (hnc : ∀ c ∈ s.consumed, ¬ c.tokenId = req.token.tokenId)
    (hsig : req.token.signature = sign_token req.token.tokenId
      req.token.volumeId req.token.operation secret req.token.offsetBytes
      req.token.lengthBytes)
    (hvol : req.token.volumeId = req.volumeId)
    (hoff : req.token.offsetBytes ≤ req.offsetBytes)
    (hlen : req.offsetBytes + req.data.length ≤
      req.token.offsetBytes + req.token.lengthBytes)
    (hrep : (s.replicas.find?
      (fun r => r.chunkId == req.chunkId && r.volumeId == req.volumeId)).isSome) :
    ((handle_write secret now s req).1.ok = true) ∧
    ((handle_write secret now (handle_write secret now s req).2 req).1.ok =
      false) ∧
    ((handle_write secret now (handle_write secret now s req).2 req).1.error =
      some ("Token verification failed: Token already consumed at " ++
        toString now)) ∧
    (((handle_write secret now (handle_write secret now s req).2
        req).2.consumed.filter
        (fun c => c.tokenId == req.token.tokenId)).length = 1) ∧
    ((handle_write secret now (handle_write secret now s req).2 req).2.journal
      = s.journal ++ [⟨req.token.tokenId, req.chunkId, "write",
          req.offsetBytes, (req.data.length : Int), "COMMITTED"⟩]) := by
  have hop' : req.token.operation ≠ "" := by rw [hop]; decide
  have hv1 : verify_io_token s.consumed secret now req.token req.volumeId
      req.chunkId "write" req.offsetBytes (req.data.length : Int) =
      (true, none) :=
    verify_io_token_valid_of s.consumed secret now req.token req.volumeId
      req.chunkId "write" req.offsetBytes (req.data.length : Int) hid
      hop' hsg hexp hnc hsig hvol hop hoff (by exact_mod_cast hlen)
  obtain ⟨rep, hr⟩ := Option.isSome_iff_exists.mp hrep
  have hok1 : (handle_write secret now s req).1.ok = true := by
    simp [handle_write, hv1, hr]
  have hcons : (handle_write secret now s req).2.consumed = s.consumed ++
      [⟨req.token.tokenId, req.volumeId, req.chunkId, "write",
        req.offsetBytes, (req.data.length : Int), true, now⟩] := by
    simp [handle_write, hv1, hr]
  have hjour : (handle_write secret now s req).2.journal = s.journal ++
      [⟨req.token.tokenId, req.chunkId, "write", req.offsetBytes,
        (req.data.length : Int), "COMMITTED"⟩] := by
    simp [handle_write, hv1, hr]
  have hfnone : s.consumed.find?
      (fun c => c.tokenId == req.token.tokenId) = none :=
    List.find?_eq_none.mpr (fun c hc => by simpa using hnc c hc)
  have hv2 : verify_io_token (handle_write secret now s req).2.consumed secret
      now req.token req.volumeId req.chunkId "write" req.offsetBytes
      (req.data.length : Int) =
      (false, some ("Token already consumed at " ++ toString now)) := by
    rw [hcons]
    unfold verify_io_token
    rw [if_neg (by push_neg; exact ⟨hid, hop', hsg⟩)]
    rw [if_neg (by simp [is_token_expired]; omega)]
    rw [find?_append_of_none hfnone]
    simp [List.find?_cons]
  have hok2 : (handle_write secret now (handle_write secret now s req).2
      req).1.ok = false := by
    rw [handle_write.eq_def]
    simp only [hv2]
    simp
  have herr2 : (handle_write secret now (handle_write secret now s req).2
      req).1.error = some ("Token verification failed: " ++
        ("Token already consumed at " ++ toString now)) := by
    rw [handle_write.eq_def]
    simp only [hv2]
    simp
  have hst2 : (handle_write secret now (handle_write secret now s req).2
      req).2 = (handle_write secret now s req).2 := by
    rw [handle_write.eq_def]
    simp only [hv2]
    simp
  have hlit : ("Token verification failed: " ++ "Token already consumed at "
      : String) = "Token verification failed: Token already consumed at " := by
    decide
  refine ⟨hok1, hok2, by rw [herr2, ← String.append_assoc, hlit], ?_, ?_⟩
  · rw [hst2, hcons]
    simp only [List.filter_append]
    rw [List.filter_eq_nil_iff.mpr (fun c hc => by simpa using hnc c hc)]
    simp
  · rw [hst2, hjour]

/-- C3 witness: the replay property evaluated on a concrete signed
write frame. -/
theorem c3_write_replay_witness :
    ((handle_write "s" 50
        ⟨[], [], [⟨1, 5, 7, 0⟩], []⟩
        ⟨⟨"t", 7, 1, "write", 0, 4, sign_token "t" 7 "write" "s" 0 4, 100⟩,
          7, 5, 0, [1, 2, 3, 4]⟩).1.ok = true) ∧
    ((handle_write "s" 50
        (handle_write "s" 50 ⟨[], [], [⟨1, 5, 7, 0⟩], []⟩
          ⟨⟨"t", 7, 1, "write", 0, 4, sign_token "t" 7 "write" "s" 0 4, 100⟩,
            7, 5, 0, [1, 2, 3, 4]⟩).2
        ⟨⟨"t", 7, 1, "write", 0, 4, sign_token "t" 7 "write" "s" 0 4, 100⟩,
          7, 5, 0, [1, 2, 3, 4]⟩).1.ok = false) ∧
    ((handle_write "s" 50
        (handle_write "s" 50 ⟨[], [], [⟨1, 5, 7, 0⟩], []⟩
          ⟨⟨"t", 7, 1, "write", 0, 4, sign_token "t" 7 "write" "s" 0 4, 100⟩,
            7, 5, 0, [1, 2, 3, 4]⟩).2
        ⟨⟨"t", 7, 1, "write", 0, 4, sign_token "t" 7 "write" "s" 0 4, 100⟩,
          7, 5, 0, [1, 2, 3, 4]⟩).2.consumed.filter
        (fun c => c.tokenId == "t")).length = 1 := by
  have h := c3_write_replay "s" 50 ⟨[], [], [⟨1, 5, 7, 0⟩], []⟩
    ⟨⟨"t", 7, 1, "write", 0, 4, sign_token "t" 7 "write" "s" 0 4, 100⟩,
      7, 5, 0, [1, 2, 3, 4]⟩
    (by decide) (by decide) rfl (by decide) (by simp) rfl rfl (by decide)
    (by decide) (by decide)
  exact ⟨h.1, h.2.1, h.2.2.2.1⟩

/-! Frame lemmas: chunk allocation never touches the pool table. -/

theorem foldl_targets_pools (cid : Nat) (l : List SDSNode)
    (st : ClusterState) :
    (l.foldl (fun acc sds =>
      { updateSds acc sds.sdsId (fun m =>
          { m with usedCapacityGb := sds.usedCapacityGb + 1 / 256 }) with
        replicas := acc.replicas ++
          [⟨acc.nextReplicaId, cid, sds.sdsId, true, true, false⟩],
        nextReplicaId := acc.nextReplicaId + 1 }) st).pools = st.pools := by
  induction l generalizing st with
  | nil => rfl
  | cons x xs ih => simpa using ih _

theorem allocate_chunks_go_pools (snap : List SDSNode) (rc vid : Nat) :
    ∀ (n created : Nat) (st : ClusterState),
    (allocate_chunks_go snap rc vid n created st).2.2.pools = st.pools := by
  intro n
  induction n with
  | zero => intro created st; rfl
  | succ m ih =>
    intro created st
    unfold allocate_chunks_go
    by_cases h : (select_replica_targets snap rc).length < rc
    · simp [h]
    · simp only [h, if_false]
      rw [ih]
      exact foldl_targets_pools _ _ _

theorem allocate_chunks_pending_pools (sess : Session) (poolId volumeId : Nat)
    (hcp : sess.committed = sess.pending) :
    (allocate_chunks sess poolId volumeId).2.pending.pools =
      sess.pending.pools := by
  unfold allocate_chunks
  cases hp : findPool sess.pending poolId with
  | none => rfl
  | some pool =>
    cases hv : findVolume sess.pending volumeId with
    | none => rfl
    | some volume =>
      simp only []
      split
      · rfl
      · split
        · simpa using allocate_chunks_go_pools _ _ _ _ _ _
        · simp [Session.rollback, hcp]

theorem allocate_chunks_committed_pools (sess : Session)
    (poolId volumeId : Nat) (hcp : sess.committed = sess.pending) :
    (allocate_chunks sess poolId volumeId).2.committed.pools =
      sess.pending.pools := by
  unfold allocate_chunks
  cases hp : findPool sess.pending poolId with
  | none => simp [hcp]
  | some pool =>
    cases hv : findVolume sess.pending volumeId with
    | none => simp [hcp]
    | some volume =>
      simp only []
      split
      · simp [hcp]
      · split
        · simpa [Session.commit] using allocate_chunks_go_pools _ _ _ _ _ _
        · simp [Session.rollback, hcp]

/-- Whatever branch `create_volume_finish` takes, the durable pool table
is the one `allocate_capacity` committed. -/
theorem create_volume_finish_pools (sess2 : Session) (poolId vid : Nat)
    (hcp : sess2.committed = sess2.pending) :
    (create_volume_finish sess2 poolId vid).2.pools = sess2.pending.pools := by
  unfold create_volume_finish
  simp only []
  split
  · simpa [Session.rollback] using
      allocate_chunks_committed_pools sess2 poolId vid hcp
  · split
    · simpa [Session.rollback] using
        allocate_chunks_committed_pools sess2 poolId vid hcp
    · simpa [Session.commit, updateVolume] using
        allocate_chunks_pending_pools sess2 poolId vid hcp

/-- `find?` over a conditional map whose function preserves the searched
predicate. -/
theorem find?_map_update {α : Type} (f : α → α) (p : α → Bool) (l : List α)
    (h : ∀ x, p (f x) = p x) :
    (l.map (fun x => if p x then f x else x)).find? p = (l.find? p).map f := by
  induction l with
  | nil => rfl
  | cons x xs ih =>
    cases hx : p x with
    | true => simp [List.find?_cons, hx, h x]
    | false => simpa [List.find?_cons, hx] using ih

/-- C8 (amended): a successful thin-volume creation adds exactly the
0.1 GB metadata reserve to the pool's `reserved_capacity_gb`, leaves
`used_capacity_gb` (and every other pool field) unchanged, and no other
pool-capacity charge is made anywhere in the creation path. -/
theorem c8_thin_create_accounting (db : ClusterState) (poolId : Nat)
    (name : String) (sizeGb : Q) (pool : StoragePool)
    (hp : findPool db poolId = some pool)
    (hfresh : ∀ v ∈ db.volumes, v.volumeId < db.nextVolumeId)
    (hsucc : (create_volume db poolId name sizeGb "thin").1.1 = true) :
    findPool (create_volume db poolId name sizeGb "thin").2 poolId =
      some { pool with reservedCapacityGb :=
        pool.reservedCapacityGb + 1 / 10 } := by
  have hpp : parseProvisioning "thin" = some ProvisioningType.thin := by decide
  unfold create_volume at hsucc ⊢
  rw [hp] at hsucc ⊢
  by_cases h1 : db.volumes.any (fun v => v.name == name) = true
  · rw [if_pos h1] at hsucc; simp at hsucc
  · rw [if_neg h1] at hsucc ⊢
    by_cases h2 : sizeGb ≤ 0
    · rw [if_pos h2] at hsucc; simp at hsucc
    · rw [if_neg h2] at hsucc ⊢
      rw [hpp] at hsucc ⊢
      simp only [Session.start] at hsucc ⊢
      have hfv : findVolume
          { db with
              volumes := db.volumes ++
                [⟨db.nextVolumeId, poolId, name, sizeGb,
                  ProvisioningType.thin, VolumeState.creating, 0, 0⟩],
              nextVolumeId := db.nextVolumeId + 1 } db.nextVolumeId =
          some ⟨db.nextVolumeId, poolId, name, sizeGb,
            ProvisioningType.thin, VolumeState.creating, 0, 0⟩ := by
        unfold findVolume
        rw [find?_append_of_none (List.find?_eq_none.mpr
          (fun v hv => by simpa using Nat.ne_of_lt (hfresh v hv)))]
        simp [List.find?_cons]
      have hfp : findPool
          { db with
              volumes := db.volumes ++
                [⟨db.nextVolumeId, poolId, name, sizeGb,
                  ProvisioningType.thin, VolumeState.creating, 0, 0⟩],
              nextVolumeId := db.nextVolumeId + 1 } poolId = some pool := hp
      by_cases hcap : pool.totalCapacityGb -
          (pool.usedCapacityGb + pool.reservedCapacityGb) < 1 / 10
      · have hacF : allocate_capacity
            ⟨db, { db with
              volumes := db.volumes ++
                [⟨db.nextVolumeId, poolId, name, sizeGb,
                  ProvisioningType.thin, VolumeState.creating, 0, 0⟩],
              nextVolumeId := db.nextVolumeId + 1 }⟩ poolId db.nextVolumeId =
            ((false, "Pool capacity exhausted even for thin volume metadata"),
             ⟨db, { db with
               volumes := db.volumes ++
                 [⟨db.nextVolumeId, poolId, name, sizeGb,
                   ProvisioningType.thin, VolumeState.creating, 0, 0⟩],
               nextVolumeId := db.nextVolumeId + 1 }⟩) := by
          rw [allocate_capacity.eq_def]
          rw [hfp, hfv]
          simp [hcap]
        simp only [hacF] at hsucc
        simp at hsucc
      · have hacS : allocate_capacity
            ⟨db, { db with
              volumes := db.volumes ++
                [⟨db.nextVolumeId, poolId, name, sizeGb,
                  ProvisioningType.thin, VolumeState.creating, 0, 0⟩],
              nextVolumeId := db.nextVolumeId + 1 }⟩ poolId db.nextVolumeId =
            ((true, "Capacity allocated successfully"),
             Session.commit ⟨db, updateVolume (updatePool
               { db with
                 volumes := db.volumes ++
                   [⟨db.nextVolumeId, poolId, name, sizeGb,
                     ProvisioningType.thin, VolumeState.creating, 0, 0⟩],
                 nextVolumeId := db.nextVolumeId + 1 } poolId (fun p =>
                   { p with reservedCapacityGb :=
                       p.reservedCapacityGb + 1 / 10 }))
               db.nextVolumeId (fun v => { v with usedCapacityGb := 0 })⟩) := by
          rw [allocate_capacity.eq_def]
          rw [hfp, hfv]
          simp [hcap]
        simp only [hacS]
        simp only [Prod.fst, not_true, if_neg, ite_false]
        have hpools := create_volume_finish_pools
          (Session.commit ⟨db, updateVolume (updatePool
            { db with
              volumes := db.volumes ++
                [⟨db.nextVolumeId, poolId, name, sizeGb,
                  ProvisioningType.thin, VolumeState.creating, 0, 0⟩],
              nextVolumeId := db.nextVolumeId + 1 } poolId (fun p =>
                { p with reservedCapacityGb :=
                    p.reservedCapacityGb + 1 / 10 }))
            db.nextVolumeId (fun v => { v with usedCapacityGb := 0 })⟩)
          poolId db.nextVolumeId rfl
        unfold findPool
        rw [hpools]
        have hp' : db.pools.find? (fun p => p.poolId == poolId) = some pool :=
          hp
        show (db.pools.map (fun x =>
            if (fun p => p.poolId == poolId) x then
              (fun p => { p with reservedCapacityGb :=
                p.reservedCapacityGb + 1 / 10 }) x
            else x)).find? (fun p => p.poolId == poolId) =
          some { pool with reservedCapacityGb :=
            pool.reservedCapacityGb + 1 / 10 }
        rw [find?_map_update
          (fun p => { p with reservedCapacityGb :=
            p.reservedCapacityGb + 1 / 10 })
          (fun p => p.poolId == poolId) db.pools (fun x => rfl), hp']
        rfl

/-! Fold characterization: updating replicas one id at a time equals a
single conditional map, provided the ids are distinct. -/

theorem contains_eq_false_of_not_mem {l : List Nat} {a : Nat} (h : a ∉ l) :
    l.contains a = false := by
  induction l with
  | nil => rfl
  | cons b bs ih =>
    have h1 : (a == b) = false := by
      simpa using fun e => h (by simp [e])
    have h2 : bs.contains a = false :=
      ih (fun hm => h (List.mem_cons_of_mem _ hm))
    simp only [List.contains_cons, h1, h2, Bool.or_self]

theorem foldl_updateReplica_char (f : ReplicaRow → ReplicaRow)
    (hf : ∀ r, (f r).replicaId = r.replicaId) :
    ∀ (l : List ReplicaRow) (st : ClusterState),
    (l.map (fun r => r.replicaId)).Nodup →
    (l.foldl (fun acc r => updateReplica acc r.replicaId f) st) =
      { st with replicas := st.replicas.map (fun x =>
          if (l.map (fun r => r.replicaId)).contains x.replicaId then f x
          else x) } := by
  intro l
  induction l with
  | nil => intro st _; simp
  | cons r l' ih =>
    intro st hnd
    have hmem : r.replicaId ∉ l'.map (fun r => r.replicaId) :=
      (List.nodup_cons.mp (by simpa using hnd)).1
    have hnd' : (l'.map (fun r => r.replicaId)).Nodup :=
      (List.nodup_cons.mp (by simpa using hnd)).2
    show (l'.foldl (fun acc r => updateReplica acc r.replicaId f)
      (updateReplica st r.replicaId f)) = _
    rw [ih (updateReplica st r.replicaId f) hnd']
    unfold updateReplica
    simp only [List.map_map]
    congr 1
    have hfun : ((fun x => if (l'.map (fun r => r.replicaId)).contains
          x.replicaId then f x else x) ∘
        (fun r1 => if r1.replicaId == r.replicaId then f r1 else r1)) =
        (fun x => if ((r :: l').map (fun r => r.replicaId)).contains
          x.replicaId then f x else x) := by
      funext x
      by_cases hx : x.replicaId = r.replicaId
      · have hbe : (x.replicaId == r.replicaId) = true := by simp [hx]
        have hfx : (f x).replicaId = r.replicaId := (hf x).trans hx
        have hc1 : (l'.map (fun r => r.replicaId)).contains (f x).replicaId
            = false := by
          rw [hfx]; exact contains_eq_false_of_not_mem hmem
        have hc2 : ((r :: l').map (fun r => r.replicaId)).contains
            x.replicaId = true := by
          simp only [List.map_cons, List.contains_cons, hbe, Bool.true_or]
        simp only [Function.comp]
        rw [if_pos hbe, if_neg (by rw [hc1]; decide), if_pos hc2]
      · have hbx : (x.replicaId == r.replicaId) = false := by simpa using hx
        simp only [Function.comp]
        rw [if_neg (show ¬((x.replicaId == r.replicaId) = true) by
          rw [hbx]; decide)]
        rw [List.map_cons, List.contains_cons, hbx]
        simp only [Bool.false_or]
    rw [hfun]

/-- Jobs of other pools survive a pool-targeted job update. -/
theorem filter_ne_map_update (pid : Nat) (g : RebuildJobRow → RebuildJobRow)
    (hg : ∀ j, (g j).poolId = j.poolId) (l : List RebuildJobRow) :
    (l.map (fun j => if j.poolId == pid then g j else j)).filter
      (fun j => j.poolId != pid) = l.filter (fun j => j.poolId != pid) := by
  induction l with
  | nil => rfl
  | cons j l' ih =>
    by_cases hj : j.poolId = pid <;> simp_all [List.filter_cons]

theorem updatePool_jobs (s : ClusterState) (pid : Nat)
    (g : StoragePool → StoragePool) : (updatePool s pid g).jobs = s.jobs :=
  rfl

theorem filter_ne_jobProgress (s : ClusterState) (pid : Nat) (b p : Int) :
    (updateJobsByPool s pid (jobProgressUpdate b p)).jobs.filter
      (fun j => j.poolId != pid) = s.jobs.filter (fun j => j.poolId != pid) :=
  filter_ne_map_update pid (jobProgressUpdate b p) (fun _ => rfl) s.jobs

theorem filter_ne_jobEstimate (s : ClusterState) (pid : Nat) (e : Int) :
    (updateJobsByPool s pid (jobEstimateUpdate e)).jobs.filter
      (fun j => j.poolId != pid) = s.jobs.filter (fun j => j.poolId != pid) :=
  filter_ne_map_update pid (jobEstimateUpdate e) (fun _ => rfl) s.jobs

theorem filter_ne_jobStall (s : ClusterState) (pid : Nat) :
    (updateJobsByPool s pid jobStallUpdate).jobs.filter
      (fun j => j.poolId != pid) = s.jobs.filter (fun j => j.poolId != pid) :=
  filter_ne_map_update pid jobStallUpdate (fun _ => rfl) s.jobs

/-- C10 (amended): a progress tick for pool `P` in the active branch
marks the first `int(rate·2^20 / 4·2^20)` rebuilding replicas of the
*whole cluster* — in replica-table order, with no pool filter — as
available and no longer rebuilding, leaving every other replica and all
chunk rows unchanged; job rows of pools other than `P` are untouched
(while the completed bytes are credited to `P`'s job alone). -/
theorem c10_tick_completes_first_n_globally (st : ClusterState) (now : Int)
    (poolId : Nat) (job : RebuildJobRow) (pool : StoragePool)
    (hj : st.jobs.find? (fun j =>
      j.poolId == poolId && j.state == RebuildState.inProgress) = some job)
    (hp : findPool st poolId = some pool)
    (hne : (st.replicas.filter (fun r => r.isRebuilding)).isEmpty = false)
    (hnd : (st.replicas.map (fun r => r.replicaId)).Nodup) :
    ((update_rebuild_progress st now poolId).2.2.replicas =
      st.replicas.map (fun x =>
        if (((st.replicas.filter (fun r => r.isRebuilding)).take
            ((ratTrunc (pool.rebuildRateLimitMbps * 1048576 /
              4194304)).toNat)).map (fun r => r.replicaId)).contains
            x.replicaId then
          { x with isRebuilding := false, isAvailable := true }
        else x)) ∧
    ((update_rebuild_progress st now poolId).2.2.chunks = st.chunks) ∧
    ((update_rebuild_progress st now poolId).2.2.jobs.filter
        (fun j => j.poolId != poolId) =
      st.jobs.filter (fun j => j.poolId != poolId)) := by
  have hndt : (((st.replicas.filter (fun r => r.isRebuilding)).take
      ((ratTrunc (pool.rebuildRateLimitMbps * 1048576 /
        4194304)).toNat)).map (fun r => r.replicaId)).Nodup := by
    refine List.Nodup.sublist (List.Sublist.map _ ?_) hnd
    exact ((st.replicas.filter (fun r => r.isRebuilding)).take_sublist
      _).trans (List.filter_sublist _)
  have hfold := foldl_updateReplica_char
    (fun x => { x with isRebuilding := false, isAvailable := true })
    (fun r => rfl)
    ((st.replicas.filter (fun r => r.isRebuilding)).take
      ((ratTrunc (pool.rebuildRateLimitMbps * 1048576 / 4194304)).toNat))
    st hndt
  unfold update_rebuild_progress
  rw [hj, hp]
  simp only [hne, Bool.false_eq_true, if_false, reduceIte]
  rw [hfold]
  refine ⟨?_, ?_, ?_⟩
  · split <;> split <;> rfl
  · split <;> split <;> rfl
  · rw [updatePool_jobs]
    split
    · rw [updatePool_jobs, filter_ne_jobStall]
      split
      · rw [filter_ne_jobEstimate, filter_ne_jobProgress]
      · rw [filter_ne_jobProgress]
    · split
      · rw [filter_ne_jobEstimate, filter_ne_jobProgress]
      · rw [filter_ne_jobProgress]

/-- C10 amended witness at the two-pool scenario. -/
theorem c10_tick_completes_first_n_globally_witness :
    ((update_rebuild_progress dbTwoPools 1 1).2.2.chunks =
      dbTwoPools.chunks) ∧
    ((update_rebuild_progress dbTwoPools 1 1).2.2.jobs.filter
        (fun j => j.poolId != 1) =
      dbTwoPools.jobs.filter (fun j => j.poolId != 1)) := by
  have h := c10_tick_completes_first_n_globally dbTwoPools 1 1
    ⟨1, 1, RebuildState.inProgress, 0, 4, 0, 0, 4, 0, none⟩
    ⟨1, 1, ProtectionPolicy.twoCopies, 100, 0, 0, 4,
      PoolHealth.degradedPool, RebuildState.inProgress, 0⟩
    (by decide) (by decide) (by decide) (by decide)
  exact ⟨h.2.1, h.2.2⟩

/-! ## C6: the degraded-flag invariant -/

/-- A state with the same chunk and replica tables satisfies the same
degradation invariant. -/
theorem InvDeg_of_same {s t : ClusterState} (hc : t.chunks = s.chunks)
    (hr : t.replicas = s.replicas) (h : InvDeg s) : InvDeg t := by
  intro c hcm
  rw [hc] at hcm
  rw [hr]
  exact h c hcm

theorem availCountL_append_unavail (rs ext : List ReplicaRow) (cid : Nat)
    (h : ∀ r ∈ ext, r.isAvailable = false) :
    availCountL (rs ++ ext) cid = availCountL rs cid := by
  unfold availCountL
  have hnil : ext.filter (fun r => r.chunkId == cid && r.isAvailable) = [] :=
    List.filter_eq_nil_iff.mpr (fun r hr => by simp [h r hr])
  rw [List.filter_append, hnil]
  simp

/-- Updating rows of one id leaves the counts of chunks those rows do
not belong to untouched. -/
theorem availCountL_update_ne (rs : List ReplicaRow) (i cid : Nat)
    (g : ReplicaRow → ReplicaRow) (hg : ∀ x, (g x).chunkId = x.chunkId)
    (h : ∀ x ∈ rs, x.replicaId = i → x.chunkId ≠ cid) :
    availCountL (rs.map (fun x => if x.replicaId == i then g x else x)) cid =
      availCountL rs cid := by
  induction rs with
  | nil => rfl
  | cons y ys ih =>
    have ih' := ih (fun x hx => h x (List.mem_cons_of_mem _ hx))
    unfold availCountL at ih' ⊢
    by_cases hy : y.replicaId = i
    · have hne : y.chunkId ≠ cid := h y (List.mem_cons_self _ _) hy
      have hh : (if (y.replicaId == i : Bool) then g y else y) = g y := by
        simp [hy]
      have hb : ((g y).chunkId == cid) = false := by
        simp [hg y, hne]
      have hb2 : (y.chunkId == cid) = false := by simp [hne]
      simp only [List.map_cons, hh, List.filter_cons, hb, hb2, Bool.false_and]
      simpa using ih'
    · have hh : (if (y.replicaId == i : Bool) then g y else y) = y := by
        simp [hy]
      simp only [List.map_cons, hh, List.filter_cons]
      by_cases hp : (y.chunkId == cid && y.isAvailable) = true
      · simp only [hp, if_true, List.length_cons]
        simpa using ih'
      · simp only [Bool.not_eq_true] at hp
        simp only [hp]
        simpa using ih'

/-- A per-row transformation that can only withdraw availability (and
keeps chunk membership) never increases a chunk's available count. -/
theorem availCountL_map_le (rs : List ReplicaRow) (cid : Nat)
    (u : ReplicaRow → ReplicaRow)
    (hu : ∀ x, (u x).chunkId = x.chunkId ∧
      ((u x).isAvailable = true → x.isAvailable = true)) :
    availCountL (rs.map u) cid ≤ availCountL rs cid := by
  induction rs with
  | nil => exact Nat.le_refl _
  | cons y ys ih =>
    unfold availCountL at ih ⊢
    simp only [List.map_cons, List.filter_cons]
    by_cases hp : ((u y).chunkId == cid && (u y).isAvailable) = true
    · have hpy : (y.chunkId == cid && y.isAvailable) = true := by
        simp only [Bool.and_eq_true] at hp ⊢
        exact ⟨by rw [← (hu y).1]; exact hp.1, (hu y).2 hp.2⟩
      simp only [hp, hpy, if_true, List.length_cons]
      exact Nat.succ_le_succ ih
    · simp only [Bool.not_eq_true] at hp
      simp only [hp]
      by_cases hpy : (y.chunkId == cid && y.isAvailable) = true
      · simp only [hpy, if_true, List.length_cons]
        exact Nat.le_succ_of_le ih
      · simp only [Bool.not_eq_true] at hpy
        simp only [hpy]
        exact ih

/-- A per-row transformation that can only grant availability (and
keeps chunk membership) never decreases a chunk's available count. -/
theorem availCountL_map_ge (rs : List ReplicaRow) (cid : Nat)
    (u : ReplicaRow → ReplicaRow)
    (hu : ∀ x, (u x).chunkId = x.chunkId ∧
      (x.isAvailable = true → (u x).isAvailable = true)) :
    availCountL rs cid ≤ availCountL (rs.map u) cid := by
  induction rs with
  | nil => exact Nat.le_refl _
  | cons y ys ih =>
    unfold availCountL at ih ⊢
    simp only [List.map_cons, List.filter_cons]
    by_cases hpy : (y.chunkId == cid && y.isAvailable) = true
    · have hp : ((u y).chunkId == cid && (u y).isAvailable) = true := by
        simp only [Bool.and_eq_true] at hpy ⊢
        exact ⟨by rw [(hu y).1]; exact hpy.1, (hu y).2 hpy.2⟩
      simp only [hp, hpy, if_true, List.length_cons]
      exact Nat.succ_le_succ ih
    · simp only [Bool.not_eq_true] at hpy
      simp only [hpy]
      by_cases hp : ((u y).chunkId == cid && (u y).isAvailable) = true
      · simp only [hp, if_true, List.length_cons]
        exact Nat.le_succ_of_le ih
      · simp only [Bool.not_eq_true] at hp
        simp only [hp]
        exact ih

/-- A transformation that only touches rows of other SDS nodes leaves a
chunk's count alone when the chunk has no replica on the touched node. -/
theorem availCountL_map_sds_eq (rs : List ReplicaRow) (cid sdsId : Nat)
    (u : ReplicaRow → ReplicaRow)
    (h : ∀ x ∈ rs, x.chunkId = cid → x.sdsId ≠ sdsId)
    (hcid : ∀ x, (u x).chunkId = x.chunkId) :
    availCountL (rs.map (fun x => if x.sdsId == sdsId then u x else x)) cid =
      availCountL rs cid := by
  induction rs with
  | nil => rfl
  | cons y ys ih =>
    have ih' := ih (fun x hx => h x (List.mem_cons_of_mem _ hx))
    unfold availCountL at ih' ⊢
    by_cases hy : y.sdsId = sdsId
    · have hyc : y.chunkId ≠ cid := fun e => h y (List.mem_cons_self _ _) e hy
      have hh : (if (y.sdsId == sdsId : Bool) then u y else y) = u y := by
        simp [hy]
      have hb : ((u y).chunkId == cid) = false := by simp [hcid y, hyc]
      have hb2 : (y.chunkId == cid) = false := by simp [hyc]
      simp only [List.map_cons, hh, List.filter_cons, hb, hb2, Bool.false_and]
      simpa using ih'
    · have hh : (if (y.sdsId == sdsId : Bool) then u y else y) = y := by
        simp [hy]
      simp only [List.map_cons, hh, List.filter_cons]
      by_cases hp : (y.chunkId == cid && y.isAvailable) = true
      · simp only [hp, if_true, List.length_cons]
        simpa using ih'
      · simp only [Bool.not_eq_true] at hp
        simp only [hp]
        simpa using ih'

/-- C8 amended witness: the thin-volume accounting evaluated on the
concrete two-node pool. -/
theorem c8_thin_create_accounting_witness :
    findPool (create_volume dbTwoSds 1 "v1" (1 / 256) "thin").2 1 =
      some { (⟨1, 1, ProtectionPolicy.twoCopies, 100, 5, 2, 100, PoolHealth.ok,
        RebuildState.idle, 0⟩ : StoragePool) with
          reservedCapacityGb := (2 : Q) + 1 / 10 } :=
  c8_thin_create_accounting dbTwoSds 1 "v1" (1 / 256)
    ⟨1, 1, ProtectionPolicy.twoCopies, 100, 5, 2, 100, PoolHealth.ok,
      RebuildState.idle, 0⟩
    (by decide) (by decide) (by decide)

/-! ### C6: preservation of the invariant along the failure path -/

theorem foldl_preserve {α β : Type} (P : β → Prop) (step : β → α → β)
    (hstep : ∀ st x, P st → P (step st x)) :
    ∀ (l : List α) (st : β), P st → P (l.foldl step st) := by
  intro l
  induction l with
  | nil => intro st h; exact h
  | cons x xs ih => intro st h; exact ih _ (hstep st x h)

/-- A conditional row update whose payload keeps the primary key fixed
leaves the key column unchanged. -/
theorem map_ids_update_eq {α β : Type} (l : List α) (idf : α → β)
    (cond : α → Bool) (g : α → α) (hg : ∀ x, idf (g x) = idf x) :
    (l.map (fun x => if cond x then g x else x)).map idf = l.map idf := by
  rw [List.map_map]
  apply List.map_congr_left
  intro x _
  by_cases hc : cond x = true
  · simp [Function.comp, hc, hg]
  · simp [Function.comp, hc]

/-- Flagging one chunk degraded keeps the invariant when its count
really dropped below 2 and every other chunk already satisfies it. -/
theorem invdeg_updateChunk_degrade (st1 : ClusterState) (cid : Nat)
    (hlt : availCountL st1.replicas cid < 2)
    (hother : ∀ c0 ∈ st1.chunks, c0.chunkId ≠ cid →
      (c0.isDegraded = true ↔ availCountL st1.replicas c0.chunkId < 2)) :
    InvDeg (updateChunk st1 cid (fun ch => { ch with isDegraded := true })) := by
  intro c' hc'
  have hch : (updateChunk st1 cid (fun ch =>
      { ch with isDegraded := true })).chunks = st1.chunks.map (fun c0 =>
      if c0.chunkId == cid then { c0 with isDegraded := true } else c0) := rfl
  have hrep : (updateChunk st1 cid (fun ch =>
      { ch with isDegraded := true })).replicas = st1.replicas := rfl
  rw [hch] at hc'
  rw [hrep]
  obtain ⟨c0, hc0, rfl⟩ := List.mem_map.mp hc'
  by_cases h0 : (c0.chunkId == cid) = true
  · have hh : (if (c0.chunkId == cid : Bool) then
        ({ c0 with isDegraded := true } : ChunkRow) else c0) =
        { c0 with isDegraded := true } := by simp [h0]
    rw [hh]
    have hcid : ({ c0 with isDegraded := true } : ChunkRow).chunkId = cid := by
      simpa using h0
    rw [hcid]
    have hflag : ({ c0 with isDegraded := true } : ChunkRow).isDegraded =
        true := rfl
    rw [hflag]
    simp [hlt]
  · have hh : (if (c0.chunkId == cid : Bool) then
        ({ c0 with isDegraded := true } : ChunkRow) else c0) = c0 := by
      simp [h0]
    rw [hh]
    exact hother c0 hc0 (by simpa using h0)

theorem markChunkStep_preserve (sdsId : Nat) (acc : Nat × ClusterState)
    (c : ChunkRow) (h : RWF acc.2 ∧ InvDeg acc.2) :
    RWF (markChunkStep sdsId acc c).2 ∧ InvDeg (markChunkStep sdsId acc c).2 := by
  obtain ⟨⟨hnd, hbound⟩, hinv⟩ := h
  rcases hf : acc.2.replicas.find?
      (fun r => r.chunkId == c.chunkId && r.sdsId == sdsId) with _ | rep
  · simpa [markChunkStep, hf] using ⟨⟨hnd, hbound⟩, hinv⟩
  · have hmem : rep ∈ acc.2.replicas := List.mem_of_find?_eq_some hf
    have hpred := List.find?_some hf
    have hrc : rep.chunkId = c.chunkId := by
      have h2 := hpred
      simp only [Bool.and_eq_true, beq_iff_eq] at h2
      exact h2.1
    have inj := List.inj_on_of_nodup_map hnd
    have hids : ((acc.2.replicas.map (fun x =>
        if x.replicaId == rep.replicaId then
          { x with isAvailable := false } else x)).map
          (fun r => r.replicaId)) = acc.2.replicas.map (fun r => r.replicaId) :=
      map_ids_update_eq _ _ _ _ (fun _ => rfl)
    have hrwf1 : RWF (updateReplica acc.2 rep.replicaId
        (fun r => { r with isAvailable := false })) := by
      constructor
      · show ((acc.2.replicas.map _).map _).Nodup
        rw [hids]; exact hnd
      · intro r' hr'
        obtain ⟨x, hx, rfl⟩ := List.mem_map.mp hr'
        have hxid : (if (x.replicaId == rep.replicaId : Bool) then
            ({ x with isAvailable := false } : ReplicaRow) else x).replicaId =
            x.replicaId := by
          by_cases hxx : (x.replicaId == rep.replicaId) = true <;> simp [hxx]
        rw [hxid]
        exact hbound x hx
    have hcnt_le : ∀ cid, availCountL (updateReplica acc.2 rep.replicaId
        (fun r => { r with isAvailable := false })).replicas cid ≤
        availCountL acc.2.replicas cid := by
      intro cid
      apply availCountL_map_le
      intro x
      by_cases hxx : (x.replicaId == rep.replicaId) = true <;> simp [hxx]
    have hcnt_ne : ∀ cid, cid ≠ c.chunkId →
        availCountL (updateReplica acc.2 rep.replicaId
          (fun r => { r with isAvailable := false })).replicas cid =
        availCountL acc.2.replicas cid := by
      intro cid hcid
      have hrepl : (updateReplica acc.2 rep.replicaId
          (fun r => { r with isAvailable := false })).replicas =
          acc.2.replicas.map (fun x => if x.replicaId == rep.replicaId then
            { x with isAvailable := false } else x) := rfl
      rw [hrepl]
      apply availCountL_update_ne acc.2.replicas rep.replicaId cid
        (fun r => { r with isAvailable := false }) (fun _ => rfl)
      intro x hx hxi
      have hxr : x = rep := inj hx hmem (by rw [hxi])
      rw [hxr, hrc]
      exact fun e => hcid e.symm
    by_cases hlt : availCount (updateReplica acc.2 rep.replicaId
        (fun r => { r with isAvailable := false })) c.chunkId < 2
    · have hstep : (markChunkStep sdsId acc c).2 =
          updateChunk (updateReplica acc.2 rep.replicaId
            (fun r => { r with isAvailable := false })) c.chunkId
            (fun ch => { ch with isDegraded := true }) := by
        simp [markChunkStep, hf, hlt]
      rw [hstep]
      refine ⟨hrwf1, ?_⟩
      apply invdeg_updateChunk_degrade
      · exact hlt
      · intro c0 hc0 hne
        rw [hcnt_ne c0.chunkId hne]
        exact hinv c0 hc0
    · have hstep : (markChunkStep sdsId acc c).2 =
          updateReplica acc.2 rep.replicaId
            (fun r => { r with isAvailable := false }) := by
        simp [markChunkStep, hf, hlt]
      rw [hstep]
      refine ⟨hrwf1, ?_⟩
      intro c' hc'
      have hch : (updateReplica acc.2 rep.replicaId (fun r =>
          { r with isAvailable := false })).chunks = acc.2.chunks := rfl
      rw [hch] at hc'
      by_cases h0 : c'.chunkId = c.chunkId
      · have hge : ¬ availCountL (updateReplica acc.2 rep.replicaId
            (fun r => { r with isAvailable := false })).replicas c.chunkId <
            2 := hlt
        constructor
        · intro hdeg
          exfalso
          have h1 := (hinv c' hc').mp hdeg
          rw [h0] at h1
          have h2 := hcnt_le c.chunkId
          omega
        · intro hcnt1
          exfalso
          rw [h0] at hcnt1
          exact hge hcnt1
      · rw [hcnt_ne c'.chunkId h0]
        exact hinv c' hc'

theorem mark_chunks_degraded_preserve (st : ClusterState) (sdsId poolId : Nat)
    (h : RWF st ∧ InvDeg st) :
    RWF (mark_chunks_degraded st sdsId poolId).2 ∧
    InvDeg (mark_chunks_degraded st sdsId poolId).2 := by
  unfold mark_chunks_degraded
  exact foldl_preserve (fun a => RWF a.2 ∧ InvDeg a.2) _
    (fun a v ha => foldl_preserve (fun a2 => RWF a2.2 ∧ InvDeg a2.2)
      (markChunkStep sdsId)
      (fun a2 c hc => markChunkStep_preserve sdsId a2 c hc) _ a ha)
    (poolVolumes st poolId) (0, st) h

theorem rebuildChunkStep_preserve (pool : StoragePool) (st : ClusterState)
    (c : ChunkRow) (h : RWF st ∧ InvDeg st) :
    RWF (rebuildChunkStep pool st c) ∧ InvDeg (rebuildChunkStep pool st c) := by
  obtain ⟨⟨hnd, hbound⟩, hinv⟩ := h
  rcases hft : find_rebuild_target st pool c with _ | t
  · simpa [rebuildChunkStep, hft] using ⟨⟨hnd, hbound⟩, hinv⟩
  · have hstep : rebuildChunkStep pool st c =
        { st with
          replicas := st.replicas ++
            [⟨st.nextReplicaId, c.chunkId, t.sdsId, false, false, true⟩],
          nextReplicaId := st.nextReplicaId + 1 } := by
      simp [rebuildChunkStep, hft]
    rw [hstep]
    refine ⟨⟨?_, ?_⟩, ?_⟩
    · show ((st.replicas ++
          [(⟨st.nextReplicaId, c.chunkId, t.sdsId, false, false, true⟩ :
            ReplicaRow)]).map (fun r => r.replicaId)).Nodup
      rw [List.map_append, List.nodup_append]
      refine ⟨hnd, List.nodup_singleton _, ?_⟩
      intro a ha hb
      simp only [List.map_cons, List.map_nil, List.mem_singleton] at hb
      obtain ⟨r, hr, hid⟩ := List.mem_map.mp ha
      have hlt := hbound r hr
      rw [hid, hb] at hlt
      exact Nat.lt_irrefl _ hlt
    · intro r' hr'
      show r'.replicaId < st.nextReplicaId + 1
      rcases List.mem_append.mp hr' with h1 | h2
      · exact Nat.lt_succ_of_lt (hbound r' h1)
      · have h3 : r' = (⟨st.nextReplicaId, c.chunkId, t.sdsId, false, false,
            true⟩ : ReplicaRow) := by simpa using h2
        rw [h3]
        exact Nat.lt_succ_self _
    · intro c' hc'
      have hrepl : ({ st with
          replicas := st.replicas ++
            [⟨st.nextReplicaId, c.chunkId, t.sdsId, false, false, true⟩],
          nextReplicaId := st.nextReplicaId + 1 } : ClusterState).replicas =
          st.replicas ++
            [⟨st.nextReplicaId, c.chunkId, t.sdsId, false, false, true⟩] := rfl
      rw [hrepl, availCountL_append_unavail _ _ _ (by
        intro r hr
        have h4 : r = (⟨st.nextReplicaId, c.chunkId, t.sdsId, false, false,
            true⟩ : ReplicaRow) := by simpa using hr
        rw [h4])]
      exact hinv c' hc'

theorem start_rebuild_preserve (st : ClusterState) (now : Int) (poolId : Nat)
    (h : RWF st ∧ InvDeg st) :
    RWF (start_rebuild st now poolId).2.2 ∧
    InvDeg (start_rebuild st now poolId).2.2 := by
  rcases hfp : findPool st poolId with _ | pool
  · simpa [start_rebuild, hfp] using h
  · cases hjob : (st.jobs.find? (fun j =>
        j.poolId == poolId && j.state == RebuildState.inProgress)).isSome with
    | true => simpa [start_rebuild, hfp, hjob] using h
    | false =>
      cases hde : ((poolVolumes st poolId).flatMap (fun v =>
          (volumeChunks st v.volumeId).filter (fun c => c.isDegraded))).isEmpty with
      | true => simpa [start_rebuild, hfp, hjob, hde] using h
      | false =>
        have hmain : (start_rebuild st now poolId).2.2 =
            updatePool (((poolVolumes st poolId).flatMap (fun v =>
                (volumeChunks st v.volumeId).filter (fun c => c.isDegraded))).foldl
              (rebuildChunkStep pool)
              { st with
                jobs := st.jobs ++
                  [⟨st.nextJobId, poolId, RebuildState.inProgress, 0,
                    (((poolVolumes st poolId).flatMap (fun v =>
                      (volumeChunks st v.volumeId).filter
                        (fun c => c.isDegraded))).length : Q) * 4,
                    0, 0, pool.rebuildRateLimitMbps, now, none⟩],
                nextJobId := st.nextJobId + 1 }) poolId
              (fun p => { p with
                rebuildState := RebuildState.inProgress,
                rebuildProgressPercent := 0 }) := by
          simp [start_rebuild, hfp, hjob, hde]
        rw [hmain]
        have hfold : RWF (((poolVolumes st poolId).flatMap (fun v =>
            (volumeChunks st v.volumeId).filter (fun c => c.isDegraded))).foldl
              (rebuildChunkStep pool)
              { st with
                jobs := st.jobs ++
                  [⟨st.nextJobId, poolId, RebuildState.inProgress, 0,
                    (((poolVolumes st poolId).flatMap (fun v =>
                      (volumeChunks st v.volumeId).filter
                        (fun c => c.isDegraded))).length : Q) * 4,
                    0, 0, pool.rebuildRateLimitMbps, now, none⟩],
                nextJobId := st.nextJobId + 1 }) ∧
            InvDeg (((poolVolumes st poolId).flatMap (fun v =>
            (volumeChunks st v.volumeId).filter (fun c => c.isDegraded))).foldl
              (rebuildChunkStep pool)
              { st with
                jobs := st.jobs ++
                  [⟨st.nextJobId, poolId, RebuildState.inProgress, 0,
                    (((poolVolumes st poolId).flatMap (fun v =>
                      (volumeChunks st v.volumeId).filter
                        (fun c => c.isDegraded))).length : Q) * 4,
                    0, 0, pool.rebuildRateLimitMbps, now, none⟩],
                nextJobId := st.nextJobId + 1 }) := by
          apply foldl_preserve (fun stx => RWF stx ∧ InvDeg stx)
            (rebuildChunkStep pool)
            (fun stx cx hx => rebuildChunkStep_preserve pool stx cx hx)
          exact ⟨⟨h.1.1, h.1.2⟩, h.2⟩
        exact ⟨⟨hfold.1.1, hfold.1.2⟩, hfold.2⟩

theorem failPoolStep_preserve (now : Int) (sdsId : Nat) (st : ClusterState)
    (pid : Nat) (h : RWF st ∧ InvDeg st) :
    RWF (failPoolStep now sdsId st pid) ∧
    InvDeg (failPoolStep now sdsId st pid) := by
  rcases hfp : findPool st pid with _ | pool
  · simpa [failPoolStep, hfp] using h
  · have hstep : failPoolStep now sdsId st pid =
        (start_rebuild (updatePool (mark_chunks_degraded st sdsId pid).2 pid
          (fun p => { p with
            health := PoolHealth.degradedPool,
            rebuildState := RebuildState.idle })) now pid).2.2 := by
      simp [failPoolStep, hfp]
    rw [hstep]
    apply start_rebuild_preserve
    have hm := mark_chunks_degraded_preserve st sdsId pid h
    exact ⟨⟨hm.1.1, hm.1.2⟩, hm.2⟩

/-- The failure path keeps the threshold-2 invariant. -/
theorem fail_preserves_invdeg (s : ClusterState) (now : Int) (sdsId : Nat)
    (hrwf : RWF s) (hinv : InvDeg s) :
    InvDeg (fail_sds_node s now sdsId).2.2 := by
  rcases hfs : findSds s sdsId with _ | sds
  · simpa [fail_sds_node, hfs] using hinv
  · by_cases hdown : sds.state = SDSNodeState.down
    · simpa [fail_sds_node, hfs, hdown] using hinv
    · have hmain : (fail_sds_node s now sdsId).2.2 =
          (affectedPools (updateSds s sdsId (fun n =>
            { n with state := SDSNodeState.down })) sdsId).foldl
            (failPoolStep now sdsId)
            (updateSds s sdsId (fun n =>
              { n with state := SDSNodeState.down })) := by
        simp [fail_sds_node, hfs, hdown]
      rw [hmain]
      exact (foldl_preserve (fun stx => RWF stx ∧ InvDeg stx)
        (failPoolStep now sdsId)
        (fun stx pid hx => failPoolStep_preserve now sdsId stx pid hx)
        (affectedPools (updateSds s sdsId (fun n =>
          { n with state := SDSNodeState.down })) sdsId)
        (updateSds s sdsId (fun n => { n with state := SDSNodeState.down }))
        ⟨⟨hrwf.1, hrwf.2⟩, hinv⟩).2

/-! ### C6: the recovery path.  The heal pass is a fold of
`healChunkStep` over per-volume chunk snapshots; the lemmas below track
what each level of the fold preserves. -/

/-- `healChunkStep` either leaves the accumulator alone (and then a
degraded snapshot row certifies a count still below 2), or clears a
chunk whose count reached 2. -/
theorem healChunkStep_cases (a : Nat × ClusterState) (c : ChunkRow) :
    (healChunkStep a c = a ∧
      (c.isDegraded = true → availCount a.2 c.chunkId < 2)) ∨
    (c.isDegraded = true ∧ 2 ≤ availCount a.2 c.chunkId ∧
      healChunkStep a c = (a.1 + 1, updateChunk a.2 c.chunkId
        (fun ch => { ch with isDegraded := false }))) := by
  by_cases hd : c.isDegraded = true
  · by_cases hcnt : 2 ≤ availCount a.2 c.chunkId
    · exact Or.inr ⟨hd, hcnt, by simp [healChunkStep, hd, hcnt]⟩
    · refine Or.inl ⟨by simp [healChunkStep, hd, hcnt], fun _ => ?_⟩
      omega
  · refine Or.inl ⟨by simp [healChunkStep, hd], fun h => absurd h hd⟩

theorem healChunkStep_replicas (a : Nat × ClusterState) (c : ChunkRow) :
    (healChunkStep a c).2.replicas = a.2.replicas := by
  rcases healChunkStep_cases a c with ⟨he, _⟩ | ⟨_, _, he⟩
  · rw [he]
  · rw [he]; rfl

theorem healChunkStep_volumes (a : Nat × ClusterState) (c : ChunkRow) :
    (healChunkStep a c).2.volumes = a.2.volumes := by
  rcases healChunkStep_cases a c with ⟨he, _⟩ | ⟨_, _, he⟩
  · rw [he]
  · rw [he]; rfl

theorem healChunkStep_pools (a : Nat × ClusterState) (c : ChunkRow) :
    (healChunkStep a c).2.pools = a.2.pools := by
  rcases healChunkStep_cases a c with ⟨he, _⟩ | ⟨_, _, he⟩
  · rw [he]
  · rw [he]; rfl

theorem healChunkStep_shape (a : Nat × ClusterState) (c : ChunkRow) :
    (healChunkStep a c).2.chunks.map (fun c0 => (c0.chunkId, c0.volumeId)) =
      a.2.chunks.map (fun c0 => (c0.chunkId, c0.volumeId)) := by
  rcases healChunkStep_cases a c with ⟨he, _⟩ | ⟨_, _, he⟩
  · rw [he]
  · rw [he]
    show ((a.2.chunks.map _).map _) = _
    exact map_ids_update_eq a.2.chunks (fun c0 => (c0.chunkId, c0.volumeId))
      (fun c0 => c0.chunkId == c.chunkId)
      (fun ch => { ch with isDegraded := false }) (fun _ => rfl)

theorem healChunkStep_true_mem (a : Nat × ClusterState) (c : ChunkRow) :
    ∀ c' ∈ (healChunkStep a c).2.chunks, c'.isDegraded = true →
      c' ∈ a.2.chunks := by
  intro c' hc' ht
  rcases healChunkStep_cases a c with ⟨he, _⟩ | ⟨_, _, he⟩
  · rw [he] at hc'; exact hc'
  · rw [he] at hc'
    have h2 : c' ∈ a.2.chunks.map (fun x =>
        if x.chunkId == c.chunkId then { x with isDegraded := false }
        else x) := hc'
    obtain ⟨x, hx, hxe⟩ := List.mem_map.mp h2
    by_cases h0 : (x.chunkId == c.chunkId) = true
    · exfalso
      rw [show (if (x.chunkId == c.chunkId : Bool) then
          ({ x with isDegraded := false } : ChunkRow) else x) =
          { x with isDegraded := false } from by simp [h0]] at hxe
      rw [← hxe] at ht
      simp at ht
    · rw [show (if (x.chunkId == c.chunkId : Bool) then
          ({ x with isDegraded := false } : ChunkRow) else x) = x from by
        simp [h0]] at hxe
      rw [← hxe]
      exact hx

theorem healChunkStep_false_origin (a : Nat × ClusterState) (c : ChunkRow) :
    ∀ c' ∈ (healChunkStep a c).2.chunks, c'.isDegraded = false →
      c' ∈ a.2.chunks ∨ 2 ≤ availCountL a.2.replicas c'.chunkId := by
  intro c' hc' _
  rcases healChunkStep_cases a c with ⟨he, _⟩ | ⟨_, hcnt, he⟩
  · rw [he] at hc'; exact Or.inl hc'
  · rw [he] at hc'
    have h2 : c' ∈ a.2.chunks.map (fun x =>
        if x.chunkId == c.chunkId then { x with isDegraded := false }
        else x) := hc'
    obtain ⟨x, hx, hxe⟩ := List.mem_map.mp h2
    by_cases h0 : (x.chunkId == c.chunkId) = true
    · right
      rw [show (if (x.chunkId == c.chunkId : Bool) then
          ({ x with isDegraded := false } : ChunkRow) else x) =
          { x with isDegraded := false } from by simp [h0]] at hxe
      rw [← hxe]
      have h0' : ({ x with isDegraded := false } : ChunkRow).chunkId =
          c.chunkId := by simpa using h0
      rw [h0']
      exact hcnt
    · left
      rw [show (if (x.chunkId == c.chunkId : Bool) then
          ({ x with isDegraded := false } : ChunkRow) else x) = x from by
        simp [h0]] at hxe
      rw [← hxe]
      exact hx

theorem healChunkFold_replicas :
    ∀ (lc : List ChunkRow) (a : Nat × ClusterState),
    (lc.foldl healChunkStep a).2.replicas = a.2.replicas := by
  intro lc
  induction lc with
  | nil => intro a; rfl
  | cons c0 lc' ih =>
    intro a
    show (lc'.foldl healChunkStep (healChunkStep a c0)).2.replicas = _
    rw [ih (healChunkStep a c0), healChunkStep_replicas]

theorem healChunkFold_volumes :
    ∀ (lc : List ChunkRow) (a : Nat × ClusterState),
    (lc.foldl healChunkStep a).2.volumes = a.2.volumes := by
  intro lc
  induction lc with
  | nil => intro a; rfl
  | cons c0 lc' ih =>
    intro a
    show (lc'.foldl healChunkStep (healChunkStep a c0)).2.volumes = _
    rw [ih (healChunkStep a c0), healChunkStep_volumes]

theorem healChunkFold_pools :
    ∀ (lc : List ChunkRow) (a : Nat × ClusterState),
    (lc.foldl healChunkStep a).2.pools = a.2.pools := by
  intro lc
  induction lc with
  | nil => intro a; rfl
  | cons c0 lc' ih =>
    intro a
    show (lc'.foldl healChunkStep (healChunkStep a c0)).2.pools = _
    rw [ih (healChunkStep a c0), healChunkStep_pools]

theorem healChunkFold_shape :
    ∀ (lc : List ChunkRow) (a : Nat × ClusterState),
    (lc.foldl healChunkStep a).2.chunks.map
        (fun c0 => (c0.chunkId, c0.volumeId)) =
      a.2.chunks.map (fun c0 => (c0.chunkId, c0.volumeId)) := by
  intro lc
  induction lc with
  | nil => intro a; rfl
  | cons c0 lc' ih =>
    intro a
    show (lc'.foldl healChunkStep (healChunkStep a c0)).2.chunks.map _ = _
    rw [ih (healChunkStep a c0), healChunkStep_shape]

theorem healChunkFold_true_mem :
    ∀ (lc : List ChunkRow) (a : Nat × ClusterState),
    ∀ c' ∈ (lc.foldl healChunkStep a).2.chunks, c'.isDegraded = true →
      c' ∈ a.2.chunks := by
  intro lc
  induction lc with
  | nil => intro a c' h _; exact h
  | cons c0 lc' ih =>
    intro a c' h ht
    exact healChunkStep_true_mem a c0 c' (ih (healChunkStep a c0) c' h ht) ht

theorem healChunkFold_false_origin :
    ∀ (lc : List ChunkRow) (a : Nat × ClusterState),
    ∀ c' ∈ (lc.foldl healChunkStep a).2.chunks, c'.isDegraded = false →
      c' ∈ a.2.chunks ∨ 2 ≤ availCountL a.2.replicas c'.chunkId := by
  intro lc
  induction lc with
  | nil => intro a c' h _; exact Or.inl h
  | cons c0 lc' ih =>
    intro a c' h hf
    rcases ih (healChunkStep a c0) c' h hf with h1 | h1
    · exact healChunkStep_false_origin a c0 c' h1 hf
    · rw [healChunkStep_replicas] at h1
      exact Or.inr h1

/-- The coverage lemma for one volume's heal fold: a chunk row that is
still degraded afterwards, and whose id is witnessed as degraded by
some row of the processed snapshot list, has fewer than 2 available
replicas. -/
theorem healChunkFold_cover (vId : Nat) :
    ∀ (lc : List ChunkRow) (a : Nat × ClusterState),
    (∀ c' ∈ a.2.chunks, c'.volumeId = vId → c'.isDegraded = true →
      ((∃ cx ∈ lc, cx.chunkId = c'.chunkId ∧ cx.isDegraded = true) ∨
       availCountL a.2.replicas c'.chunkId < 2)) →
    ∀ c' ∈ (lc.foldl healChunkStep a).2.chunks, c'.volumeId = vId →
      c'.isDegraded = true →
      availCountL a.2.replicas c'.chunkId < 2 := by
  intro lc
  induction lc with
  | nil =>
    intro a hyp c' hc' hvid ht
    rcases hyp c' hc' hvid ht with ⟨cx, hcx, _⟩ | h2
    · exact absurd hcx (List.not_mem_nil cx)
    · exact h2
  | cons c0 lc' ih =>
    intro a hyp c' hc' hvid ht
    have hyp' : ∀ c'' ∈ (healChunkStep a c0).2.chunks, c''.volumeId = vId →
        c''.isDegraded = true →
        ((∃ cx ∈ lc', cx.chunkId = c''.chunkId ∧ cx.isDegraded = true) ∨
         availCountL (healChunkStep a c0).2.replicas c''.chunkId < 2) := by
      intro c'' hc'' hvid'' ht''
      have hmem := healChunkStep_true_mem a c0 c'' hc'' ht''
      rw [healChunkStep_replicas]
      rcases hyp c'' hmem hvid'' ht'' with ⟨cx, hcx, hcid, hcd⟩ | h2
      · rcases List.mem_cons.mp hcx with he0 | hmem'
        · rcases healChunkStep_cases a c0 with ⟨he, himp⟩ | ⟨_, _, he⟩
          · right
            rw [← hcid, he0]
            exact himp (he0 ▸ hcd)
          · exfalso
            rw [he] at hc''
            have h2 : c'' ∈ a.2.chunks.map (fun x =>
                if x.chunkId == c0.chunkId then { x with isDegraded := false }
                else x) := hc''
            obtain ⟨x, hx, hxe⟩ := List.mem_map.mp h2
            by_cases h0 : (x.chunkId == c0.chunkId) = true
            · rw [show (if (x.chunkId == c0.chunkId : Bool) then
                  ({ x with isDegraded := false } : ChunkRow) else x) =
                  { x with isDegraded := false } from by simp [h0]] at hxe
              rw [← hxe] at ht''
              simp at ht''
            · rw [show (if (x.chunkId == c0.chunkId : Bool) then
                  ({ x with isDegraded := false } : ChunkRow) else x) = x
                  from by simp [h0]] at hxe
              have : x.chunkId = c''.chunkId := by rw [hxe]
              rw [this] at h0
              rw [← hcid, he0] at h0
              simp at h0
        · exact Or.inl ⟨cx, hmem', hcid, hcd⟩
      · exact Or.inr h2
    have := ih (healChunkStep a c0) hyp' c' hc' hvid ht
    rw [healChunkStep_replicas] at this
    exact this

theorem healVolFold_replicas :
    ∀ (vs : List VolumeRow) (a : Nat × ClusterState),
    (vs.foldl (fun acc v =>
      (volumeChunks acc.2 v.volumeId).foldl healChunkStep acc) a).2.replicas =
      a.2.replicas := by
  intro vs
  induction vs with
  | nil => intro a; rfl
  | cons v vs' ih =>
    intro a
    show (vs'.foldl _ ((volumeChunks a.2 v.volumeId).foldl healChunkStep
      a)).2.replicas = _
    rw [ih, healChunkFold_replicas]

theorem healVolFold_volumes :
    ∀ (vs : List VolumeRow) (a : Nat × ClusterState),
    (vs.foldl (fun acc v =>
      (volumeChunks acc.2 v.volumeId).foldl healChunkStep acc) a).2.volumes =
      a.2.volumes := by
  intro vs
  induction vs with
  | nil => intro a; rfl
  | cons v vs' ih =>
    intro a
    show (vs'.foldl _ ((volumeChunks a.2 v.volumeId).foldl healChunkStep
      a)).2.volumes = _
    rw [ih, healChunkFold_volumes]

theorem healVolFold_pools :
    ∀ (vs : List VolumeRow) (a : Nat × ClusterState),
    (vs.foldl (fun acc v =>
      (volumeChunks acc.2 v.volumeId).foldl healChunkStep acc) a).2.pools =
      a.2.pools := by
  intro vs
  induction vs with
  | nil => intro a; rfl
  | cons v vs' ih =>
    intro a
    show (vs'.foldl _ ((volumeChunks a.2 v.volumeId).foldl healChunkStep
      a)).2.pools = _
    rw [ih, healChunkFold_pools]

theorem healVolFold_shape :
    ∀ (vs : List VolumeRow) (a : Nat × ClusterState),
    (vs.foldl (fun acc v =>
      (volumeChunks acc.2 v.volumeId).foldl healChunkStep acc) a).2.chunks.map
        (fun c0 => (c0.chunkId, c0.volumeId)) =
      a.2.chunks.map (fun c0 => (c0.chunkId, c0.volumeId)) := by
  intro vs
  induction vs with
  | nil => intro a; rfl
  | cons v vs' ih =>
    intro a
    show (vs'.foldl _ ((volumeChunks a.2 v.volumeId).foldl healChunkStep
      a)).2.chunks.map _ = _
    rw [ih, healChunkFold_shape]

theorem healVolFold_true_mem :
    ∀ (vs : List VolumeRow) (a : Nat × ClusterState),
    ∀ c' ∈ (vs.foldl (fun acc v =>
      (volumeChunks acc.2 v.volumeId).foldl healChunkStep acc) a).2.chunks,
      c'.isDegraded = true → c' ∈ a.2.chunks := by
  intro vs
  induction vs with
  | nil => intro a c' h _; exact h
  | cons v vs' ih =>
    intro a c' h ht
    exact healChunkFold_true_mem (volumeChunks a.2 v.volumeId) a c'
      (ih ((volumeChunks a.2 v.volumeId).foldl healChunkStep a) c' h ht) ht

theorem healVolFold_false_origin :
    ∀ (vs : List VolumeRow) (a : Nat × ClusterState),
    ∀ c' ∈ (vs.foldl (fun acc v =>
      (volumeChunks acc.2 v.volumeId).foldl healChunkStep acc) a).2.chunks,
      c'.isDegraded = false →
      c' ∈ a.2.chunks ∨ 2 ≤ availCountL a.2.replicas c'.chunkId := by
  intro vs
  induction vs with
  | nil => intro a c' h _; exact Or.inl h
  | cons v vs' ih =>
    intro a c' h hf
    rcases ih ((volumeChunks a.2 v.volumeId).foldl healChunkStep a) c' h hf
      with h1 | h1
    · exact healChunkFold_false_origin (volumeChunks a.2 v.volumeId) a c' h1 hf
    · rw [healChunkFold_replicas] at h1
      exact Or.inr h1

/-- Coverage across a volume list: a chunk still degraded after the
heal fold, belonging to one of the processed volumes, really has fewer
than 2 available replicas. -/
theorem healVolFold_cover :
    ∀ (vs : List VolumeRow) (a : Nat × ClusterState),
    ∀ c' ∈ (vs.foldl (fun acc v =>
      (volumeChunks acc.2 v.volumeId).foldl healChunkStep acc) a).2.chunks,
      c'.isDegraded = true → c'.volumeId ∈ vs.map (fun v => v.volumeId) →
      availCountL a.2.replicas c'.chunkId < 2 := by
  intro vs
  induction vs with
  | nil => intro a c' _ _ hm; exact absurd hm (List.not_mem_nil _)
  | cons v vs' ih =>
    intro a c' hc' ht hm
    by_cases hvm : c'.volumeId ∈ vs'.map (fun v => v.volumeId)
    · have h1 := ih ((volumeChunks a.2 v.volumeId).foldl healChunkStep a)
        c' hc' ht hvm
      rw [healChunkFold_replicas] at h1
      exact h1
    · have hveq : c'.volumeId = v.volumeId := by
        rw [List.map_cons] at hm
        rcases List.mem_cons.mp hm with h | h
        · exact h
        · exact absurd h hvm
      have hmem : c' ∈ ((volumeChunks a.2 v.volumeId).foldl healChunkStep
          a).2.chunks :=
        healVolFold_true_mem vs'
          ((volumeChunks a.2 v.volumeId).foldl healChunkStep a) c' hc' ht
      apply healChunkFold_cover v.volumeId (volumeChunks a.2 v.volumeId) a
        ?_ c' hmem hveq ht
      intro c'' hc'' hvid'' ht''
      refine Or.inl ⟨c'', ?_, rfl, ht''⟩
      unfold volumeChunks
      rw [List.mem_filter]
      exact ⟨hc'', by simp [hvid'']⟩

theorem update_pool_health_frame (st : ClusterState) (pid : Nat) :
    (update_pool_health st pid).replicas = st.replicas ∧
    (update_pool_health st pid).volumes = st.volumes ∧
    (update_pool_health st pid).chunks = st.chunks ∧
    (update_pool_health st pid).pools.map (fun p => p.poolId) =
      st.pools.map (fun p => p.poolId) := by
  rcases hfp : findPool st pid with _ | pool
  · have he : update_pool_health st pid = st := by
      simp [update_pool_health, hfp]
    rw [he]
    exact ⟨rfl, rfl, rfl, rfl⟩
  · refine ⟨?_, ?_, ?_, ?_⟩
    · show (update_pool_health st pid).replicas = st.replicas
      unfold update_pool_health
      rw [hfp]
      rfl
    · show (update_pool_health st pid).volumes = st.volumes
      unfold update_pool_health
      rw [hfp]
      rfl
    · show (update_pool_health st pid).chunks = st.chunks
      unfold update_pool_health
      rw [hfp]
      rfl
    · show (update_pool_health st pid).pools.map (fun p => p.poolId) =
        st.pools.map (fun p => p.poolId)
      unfold update_pool_health
      rw [hfp]
      exact map_ids_update_eq st.pools (fun p => p.poolId)
        (fun p => p.poolId == pid) _ (fun _ => rfl)

theorem findPool_isSome_iff (st : ClusterState) (pid : Nat) :
    (findPool st pid).isSome = true ↔
      pid ∈ st.pools.map (fun p => p.poolId) := by
  unfold findPool
  rw [List.find?_isSome]
  constructor
  · rintro ⟨p, hp, he⟩
    exact List.mem_map.mpr ⟨p, hp, by simpa using he⟩
  · intro h
    obtain ⟨p, hp, he⟩ := List.mem_map.mp h
    exact ⟨p, hp, by simp [he]⟩

theorem mem_dedupFirstAux (a : Nat) :
    ∀ (l acc : List Nat), a ∈ dedupFirstAux l acc ↔ a ∈ l ∨ a ∈ acc := by
  intro l
  induction l with
  | nil =>
    intro acc
    simp [dedupFirstAux]
  | cons x xs ih =>
    intro acc
    by_cases hc : acc.contains x = true
    · have he0 : dedupFirstAux (x :: xs) acc =
          if acc.contains x then dedupFirstAux xs acc
          else dedupFirstAux xs (x :: acc) := rfl
      have he : dedupFirstAux (x :: xs) acc = dedupFirstAux xs acc := by
        rw [he0, if_pos hc]
      rw [he, ih acc]
      have hxacc : x ∈ acc := by simpa using hc
      constructor
      · rintro (h | h)
        · exact Or.inl (List.mem_cons_of_mem _ h)
        · exact Or.inr h
      · rintro (h | h)
        · rcases List.mem_cons.mp h with h1 | h1
          · exact Or.inr (h1 ▸ hxacc)
          · exact Or.inl h1
        · exact Or.inr h
    · have he0 : dedupFirstAux (x :: xs) acc =
          if acc.contains x then dedupFirstAux xs acc
          else dedupFirstAux xs (x :: acc) := rfl
      have he : dedupFirstAux (x :: xs) acc = dedupFirstAux xs (x :: acc) := by
        rw [he0, if_neg hc]
      rw [he, ih (x :: acc)]
      constructor
      · rintro (h | h)
        · exact Or.inl (List.mem_cons_of_mem _ h)
        · rcases List.mem_cons.mp h with h1 | h1
          · exact Or.inl (h1 ▸ List.mem_cons_self _ _)
          · exact Or.inr h1
      · rintro (h | h)
        · rcases List.mem_cons.mp h with h1 | h1
          · exact Or.inr (h1 ▸ List.mem_cons_self _ _)
          · exact Or.inl h1
        · exact Or.inr (List.mem_cons_of_mem _ h)

theorem mem_dedupFirst {a : Nat} {l : List Nat} (h : a ∈ l) :
    a ∈ dedupFirst l :=
  (mem_dedupFirstAux a l []).mpr (Or.inl h)

/-- One per-pool heal step extends the heal invariant by the pool it
processed. -/
theorem healPoolStep_inv (s0 : ClusterState) (sdsId : Nat)
    (hpools : ∀ v ∈ s0.volumes, (findPool s0 v.poolId).isSome = true)
    (done : List Nat) (st : ClusterState) (pid : Nat)
    (h : HealInv s0 done st) :
    HealInv s0 (done ++ [pid]) (healPoolStep sdsId st pid) := by
  obtain ⟨h1, h2, h3, h4, h5, h6, h7⟩ := h
  rcases hfp : findPool st pid with _ | pool
  · have he : healPoolStep sdsId st pid = st := by simp [healPoolStep, hfp]
    rw [he]
    refine ⟨h1, h2, h3, h4, h5, h6, ?_⟩
    intro c' hc' ht v hv hvid hpid
    rcases List.mem_append.mp hpid with hp | hp
    · exact h7 c' hc' ht v hv hvid hp
    · exfalso
      have hp' : v.poolId = pid := by simpa using hp
      have hs : (findPool s0 v.poolId).isSome = true := hpools v hv
      rw [hp', findPool_isSome_iff, ← h3, ← findPool_isSome_iff, hfp] at hs
      simp at hs
  · have he : healPoolStep sdsId st pid =
        update_pool_health (heal_chunks_on_recovery st sdsId pid).2 pid := by
      simp [healPoolStep, hfp]
    rw [he]
    obtain ⟨hf1, hf2, hf3, hf4⟩ :=
      update_pool_health_frame (heal_chunks_on_recovery st sdsId pid).2 pid
    have hh1 : (heal_chunks_on_recovery st sdsId pid).2.replicas =
        st.replicas := healVolFold_replicas (poolVolumes st pid) (0, st)
    have hh2 : (heal_chunks_on_recovery st sdsId pid).2.volumes =
        st.volumes := healVolFold_volumes (poolVolumes st pid) (0, st)
    have hh3 : (heal_chunks_on_recovery st sdsId pid).2.pools =
        st.pools := healVolFold_pools (poolVolumes st pid) (0, st)
    have hh4 : (heal_chunks_on_recovery st sdsId pid).2.chunks.map
        (fun c0 => (c0.chunkId, c0.volumeId)) =
        st.chunks.map (fun c0 => (c0.chunkId, c0.volumeId)) :=
      healVolFold_shape (poolVolumes st pid) (0, st)
    refine ⟨?_, ?_, ?_, ?_, ?_, ?_, ?_⟩
    · rw [hf1, hh1, h1]
    · rw [hf2, hh2, h2]
    · rw [hf4, hh3, h3]
    · rw [hf3, hh4, h4]
    · intro c' hc' ht
      rw [hf3] at hc'
      exact h5 c' (healVolFold_true_mem (poolVolumes st pid) (0, st) c'
        hc' ht) ht
    · intro c' hc' hfl
      rw [hf3] at hc'
      rcases healVolFold_false_origin (poolVolumes st pid) (0, st) c'
          hc' hfl with hm | hm
      · exact h6 c' hm hfl
      · rw [h1] at hm
        exact Or.inr hm
    · intro c' hc' ht v hv hvid hpid
      rw [hf3] at hc'
      rcases List.mem_append.mp hpid with hp | hp
      · exact h7 c' (healVolFold_true_mem (poolVolumes st pid) (0, st) c'
          hc' ht) ht v hv hvid hp
      · have hp' : v.poolId = pid := by simpa using hp
        have hvmem : v ∈ st.volumes := by rw [h2]; exact hv
        have hvp : v ∈ poolVolumes st pid := by
          unfold poolVolumes
          rw [List.mem_filter]
          exact ⟨hvmem, by simp [hp']⟩
        have hvidm : c'.volumeId ∈ (poolVolumes st pid).map
            (fun v => v.volumeId) :=
          List.mem_map.mpr ⟨v, hvp, hvid⟩
        have hcov := healVolFold_cover (poolVolumes st pid) (0, st) c'
          hc' ht hvidm
        rw [← h1]
        exact hcov

/-- The whole per-pool heal fold establishes its guarantee for every
pool in the processed list. -/
theorem healPoolFold_inv (s0 : ClusterState) (sdsId : Nat)
    (hpools : ∀ v ∈ s0.volumes, (findPool s0 v.poolId).isSome = true) :
    ∀ (l done : List Nat) (st : ClusterState), HealInv s0 done st →
      HealInv s0 (done ++ l) (l.foldl (healPoolStep sdsId) st) := by
  intro l
  induction l with
  | nil => intro done st h; simpa using h
  | cons pid l' ih =>
    intro done st h
    have h1 := healPoolStep_inv s0 sdsId hpools done st pid h
    have h2 := ih (done ++ [pid]) (healPoolStep sdsId st pid) h1
    have he : done ++ [pid] ++ l' = done ++ pid :: l' := by
      rw [List.append_assoc]
      rfl
    rw [he] at h2
    exact h2

/-- Assembly of the recovery argument: starting the per-pool heal fold
from a state whose replicas are those of `s` with the node's replicas
marked available, the threshold-2 invariant holds afterwards, provided
every chunk whose count could have risen has its pool in the processed
list. -/
theorem recover_core_invdeg (s S0 : ClusterState) (sdsId : Nat)
    (pools : List Nat) (hinv : InvDeg s)
    (hS0r : S0.replicas = s.replicas.map (fun x =>
      if x.sdsId == sdsId then { x with isAvailable := true } else x))
    (hS0c : S0.chunks = s.chunks)
    (hS0v : S0.volumes = s.volumes)
    (hpools : ∀ v ∈ S0.volumes, (findPool S0 v.poolId).isSome = true)
    (hcover : ∀ c' ∈ s.chunks,
      (∃ y ∈ s.replicas, y.chunkId = c'.chunkId ∧ y.sdsId = sdsId) →
      ∃ v' ∈ s.volumes, v'.volumeId = c'.volumeId ∧ v'.poolId ∈ pools) :
    InvDeg (pools.foldl (healPoolStep sdsId) S0) := by
  have hbase : HealInv S0 [] S0 := by
    refine ⟨rfl, rfl, rfl, rfl, fun c' h _ => h,
      fun c' hc hf => Or.inl ⟨c', hc, rfl, hf⟩,
      fun c' _ _ v _ _ hmem => absurd hmem (List.not_mem_nil _)⟩
  have hfin := healPoolFold_inv S0 sdsId hpools pools [] S0 hbase
  rw [List.nil_append] at hfin
  obtain ⟨g1, g2, g3, g4, g5, g6, g7⟩ := hfin
  intro c' hc'
  rw [g1, hS0r]
  have hgeC : ∀ cid, availCountL s.replicas cid ≤
      availCountL (s.replicas.map (fun x => if x.sdsId == sdsId then
        { x with isAvailable := true } else x)) cid := by
    intro cid
    apply availCountL_map_ge
    intro x
    by_cases hxx : (x.sdsId == sdsId) = true <;> simp [hxx]
  constructor
  · intro ht
    have hmem_s : c' ∈ s.chunks := by rw [← hS0c]; exact g5 c' hc' ht
    have hlt_s : availCountL s.replicas c'.chunkId < 2 :=
      (hinv c' hmem_s).mp ht
    by_cases hex : ∃ y ∈ s.replicas, y.chunkId = c'.chunkId ∧
        y.sdsId = sdsId
    · obtain ⟨v', hv'mem, hv'id, hv'pool⟩ := hcover c' hmem_s hex
      have h7 := g7 c' hc' ht v' (by rw [hS0v]; exact hv'mem) hv'id hv'pool
      rw [hS0r] at h7
      exact h7
    · rw [availCountL_map_sds_eq s.replicas c'.chunkId sdsId
        (fun x => { x with isAvailable := true })
        (fun x hx hxc hxs => hex ⟨x, hx, hxc, hxs⟩) (fun _ => rfl)]
      exact hlt_s
  · intro hcnt
    by_cases hfl : c'.isDegraded = true
    · exact hfl
    · exfalso
      have hfl' : c'.isDegraded = false := by
        revert hfl; cases c'.isDegraded <;> simp
      rcases g6 c' hc' hfl' with ⟨c2, hc2, hc2id, hc2f⟩ | h2
      · have hmem2 : c2 ∈ s.chunks := by rw [← hS0c]; exact hc2
        have hn2 : ¬ availCountL s.replicas c2.chunkId < 2 := by
          intro hl
          have hft := (hinv c2 hmem2).mpr hl
          rw [hc2f] at hft
          simp at hft
        have hge2 := hgeC c2.chunkId
        rw [hc2id] at hn2 hge2
        omega
      · rw [hS0r] at h2
        omega

/-- The recovery pass keeps the threshold-2 invariant on a well-formed
store. -/
theorem recover_finish_invdeg (s : ClusterState) (sdsId : Nat)
    (hwf : WFState s) (hinv : InvDeg s) :
    InvDeg (recover_finish s sdsId) := by
  obtain ⟨hndR, hndC, hndV, hbound, hchain1, hchain2, hchain3⟩ := hwf
  have injR := List.inj_on_of_nodup_map hndR
  have injC := List.inj_on_of_nodup_map hndC
  have hrepsnd : ((recoverReps s sdsId).map (fun r => r.replicaId)).Nodup := by
    have hsub : List.Sublist
        ((recoverReps s sdsId).map (fun r => r.replicaId))
        ((recoverSt1 s sdsId).replicas.map (fun r => r.replicaId)) :=
      (List.filter_sublist _).map _
    exact List.Nodup.sublist hsub hndR
  have hchar := foldl_updateReplica_char
    (fun x => { x with isAvailable := true }) (fun _ => rfl)
    (recoverReps s sdsId) (recoverSt1 s sdsId) hrepsnd
  have hmapeq : (recoverSt1 s sdsId).replicas.map (fun x =>
      if ((recoverReps s sdsId).map (fun r => r.replicaId)).contains
        x.replicaId then { x with isAvailable := true } else x) =
      s.replicas.map (fun x =>
        if x.sdsId == sdsId then { x with isAvailable := true } else x) := by
    show s.replicas.map _ = s.replicas.map _
    apply List.map_congr_left
    intro x hx
    by_cases hxs : (x.sdsId == sdsId) = true
    · have hx_in_reps : x ∈ recoverReps s sdsId :=
        List.mem_filter.mpr ⟨hx, hxs⟩
      have hcont : ((recoverReps s sdsId).map
          (fun r => r.replicaId)).contains x.replicaId = true := by
        have hm : x.replicaId ∈ (recoverReps s sdsId).map
            (fun r => r.replicaId) := List.mem_map.mpr ⟨x, hx_in_reps, rfl⟩
        simpa using hm
      rw [if_pos hcont, if_pos hxs]
    · have hnotin : x.replicaId ∉ (recoverReps s sdsId).map
          (fun r => r.replicaId) := by
        intro hmem
        obtain ⟨y, hy_reps, hyid⟩ := List.mem_map.mp hmem
        have hy_filter := List.mem_filter.mp hy_reps
        have hyx : y = x := injR hy_filter.1 hx hyid
        rw [hyx] at hy_filter
        exact hxs hy_filter.2
      have hcont := contains_eq_false_of_not_mem hnotin
      rw [if_neg (show ¬(((recoverReps s sdsId).map
          (fun r => r.replicaId)).contains x.replicaId = true) from by
        rw [hcont]; decide), if_neg hxs]
  unfold recover_finish
  rw [hchar, hmapeq]
  apply recover_core_invdeg s
    { recoverSt1 s sdsId with
      replicas := s.replicas.map (fun x =>
        if x.sdsId == sdsId then { x with isAvailable := true } else x) }
    sdsId (recoverPools s sdsId) hinv rfl rfl rfl
  · intro v hv
    rw [findPool_isSome_iff]
    obtain ⟨p, hp, hpe⟩ := hchain3 v hv
    exact List.mem_map.mpr ⟨p, hp, hpe⟩
  · intro c' hc' hex
    obtain ⟨y, hy, hyc, hys⟩ := hex
    have hyrep : y ∈ recoverReps s sdsId :=
      List.mem_filter.mpr ⟨hy, by simp [hys]⟩
    have hsome : (s.chunks.find?
        (fun cc => cc.chunkId == y.chunkId)).isSome = true :=
      List.find?_isSome.mpr ⟨c', hc', by simp [hyc]⟩
    obtain ⟨z, hz⟩ := Option.isSome_iff_exists.mp hsome
    have hzmem := List.mem_of_find?_eq_some hz
    have hzpred := List.find?_some hz
    have hzid : z.chunkId = c'.chunkId := by
      have h1 : z.chunkId = y.chunkId := by simpa using hzpred
      rw [h1, hyc]
    have hzc : z = c' := injC hzmem hc' hzid
    obtain ⟨v, hvmem, hvid⟩ := hchain2 c' hc'
    have hvsome : (s.volumes.find?
        (fun vv => vv.volumeId == c'.volumeId)).isSome = true :=
      List.find?_isSome.mpr ⟨v, hvmem, by simp [hvid]⟩
    obtain ⟨v', hv'⟩ := Option.isSome_iff_exists.mp hvsome
    have hv'mem := List.mem_of_find?_eq_some hv'
    have hv'pred := List.find?_some hv'
    have hv'id : v'.volumeId = c'.volumeId := by simpa using hv'pred
    refine ⟨v', hv'mem, hv'id, ?_⟩
    apply mem_dedupFirst
    apply List.mem_filterMap.mpr
    refine ⟨y, hyrep, ?_⟩
    show (s.chunks.find? (fun cc => cc.chunkId == y.chunkId)).bind
      (fun cc => (findVolume (recoverSt1 s sdsId) cc.volumeId).map
        (fun vv => vv.poolId)) = some v'.poolId
    rw [hz, hzc]
    show (s.volumes.find? (fun vv => vv.volumeId == c'.volumeId)).map
      (fun vv => vv.poolId) = some v'.poolId
    rw [hv']
    rfl

/-- C6 (amended): after any node fail or recover operation on a
well-formed store (distinct primary keys, fresh id counter, replicas
reachable to a pool through chunk and volume), a chunk's `is_degraded`
flag is true iff strictly fewer than **2** of its replicas are
available — the literal threshold `2` hard-coded in
`mark_chunks_degraded` and `heal_chunks_on_recovery`, regardless of the
pool policy's required replica count (3 for `erasure_coding`), contrary
to the spec's policy-dependent claim (see
`c6_policy_threshold_counterexample`). -/
theorem c6_degraded_flag_threshold_two (s : ClusterState) (now : Int)
    (sdsId : Nat) (hwf : WFState s) (hinv : InvDeg s) :
    InvDeg (fail_sds_node s now sdsId).2.2 ∧
    InvDeg (recover_sds_node s sdsId).2.2 := by
  constructor
  · exact fail_preserves_invdeg s now sdsId ⟨hwf.1, hwf.2.2.2.1⟩ hinv
  · rcases hfs : findSds s sdsId with _ | sds
    · simpa [recover_sds_node, hfs] using hinv
    · by_cases hdown : sds.state = SDSNodeState.down
      · have he : (recover_sds_node s sdsId).2.2 = recover_finish s sdsId := by
          simp [recover_sds_node, hfs, hdown]
        rw [he]
        exact recover_finish_invdeg s sdsId hwf hinv
      · simpa [recover_sds_node, hfs, hdown] using hinv

/-- C6 amended witness: the threshold-2 invariant evaluated on the
degraded three-node pool, failing the remaining data node and
recovering the DOWN node. -/
theorem c6_degraded_flag_threshold_two_witness :
    (WFState dbDegraded ∧ InvDeg dbDegraded) ∧
    InvDeg (fail_sds_node dbDegraded 0 2).2.2 ∧
    InvDeg (recover_sds_node dbDegraded 1).2.2 :=
  ⟨⟨by decide, by decide⟩,
   (c6_degraded_flag_threshold_two dbDegraded 0 2 (by decide) (by decide)).1,
   (c6_degraded_flag_threshold_two dbDegraded 0 1 (by decide) (by decide)).2⟩

end Powerflex
